import Mathlib

/- Verification of the retail ETL pipeline (src/python_pipeline/etl_pipeline.py,
class RetailETLPipeline). Tables are shallowly embedded as lists of records:
columns that the cleaner repairs with fillna are Option-valued (none models NaN),
currency and other float columns are rationals, calendar dates are integers
(day numbers; the CSV-to-date parsing is part of the excluded loader boundary).
The run date (datetime.now / pd.Timestamp.now) is passed explicitly as today. -/

/- ---------- Generic list helpers modelling the pandas primitives ---------- -/

/-- Keep the first occurrence of each key, scanning left to right over the list,
skipping keys already in seen. Models DataFrame.drop_duplicates(keep=first)
and set-like collection of group keys. -/
def dropDupAux {α κ : Type} [DecidableEq κ] (key : α → κ) (seen : List κ) : List α → List α
  | [] => []
  | x :: xs =>
      if key x ∈ seen then dropDupAux key seen xs
      else x :: dropDupAux key (key x :: seen) xs

/-- First occurrence of every key of the list. -/
def distinctBy {α κ : Type} [DecidableEq κ] (key : α → κ) (l : List α) : List α :=
  dropDupAux key [] l

/-- Stable insertion: the new element is placed before the first element that
does not have to come strictly before it. -/
def insertSorted {α : Type} (le : α → α → Bool) (a : α) : List α → List α
  | [] => [a]
  | b :: bs => if le b a && !(le a b) then b :: insertSorted le a bs else a :: b :: bs

/-- Stable insertion sort by a boolean comparison: the executable refinement
used for the pandas sorts. The sorted group-key iteration of groupby is a
deterministic order; sort_values with its default quicksort guarantees only a
permutation sorted by the key, not the order of ties, so order-sensitive
facts about sorted output are proved for arbitrary sorted permutations. -/
def sortBy {α : Type} (le : α → α → Bool) : List α → List α
  | [] => []
  | x :: xs => insertSorted le x (sortBy le xs)

/-- Code-point comparison of character lists (lexicographic). -/
def charListLe : List Char → List Char → Bool
  | [], _ => true
  | _ :: _, [] => false
  | a :: as, b :: bs =>
      if a.toNat < b.toNat then true
      else if b.toNat < a.toNat then false
      else charListLe as bs

/-- Lexicographic string order, as used by pandas when sorting group labels. -/
def strLe (a b : String) : Bool := charListLe a.data b.data

/-- Maximum of a list of rationals (the value produced by Series.idxmax
followed by loc); 0 on the empty list, which the code never reaches. -/
def listMaxQ : List ℚ → ℚ
  | [] => 0
  | [x] => x
  | x :: y :: xs => max x (listMaxQ (y :: xs))

/-- Maximum of a list of dates (Series.max on a date column). -/
def listMaxInt : List Int → Int
  | [] => 0
  | [x] => x
  | x :: y :: xs => max x (listMaxInt (y :: xs))

/-- Minimum of a list of dates (Series.min on a date column). -/
def listMinInt : List Int → Int
  | [] => 0
  | [x] => x
  | x :: y :: xs => min x (listMinInt (y :: xs))

/-- Series.mean on the present values. Callers guard the empty case where the
NaN a pandas mean of an empty series produces is observable. -/
def meanQ (l : List ℚ) : ℚ := l.sum / l.length

/-- Series.median of the present values: middle of the sorted values, or the
average of the two middle values; none on the empty series (NaN). -/
def medianQ (l : List ℚ) : Option ℚ :=
  let s := sortBy (fun a b => decide (a ≤ b)) l
  if s.length = 0 then none
  else if s.length % 2 = 1 then some (s.getD (s.length / 2) 0)
  else some ((s.getD (s.length / 2 - 1) 0 + s.getD (s.length / 2) 0) / 2)

/-- DataFrame.round(2) on a float column. -/
def round2 (q : ℚ) : ℚ := ((round (q * 100) : ℤ) : ℚ) / 100

/- ---------- Record types (one per CSV table) ---------- -/

/-- A customers row: id, name, age, region, created_at. name, age and region
can be missing (the cleaner repairs them with fillna). -/
structure Customer where
  id : Int
  name : Option String
  age : Option ℚ
  region : Option String
  created_at : Int
  deriving Repr, DecidableEq

/-- A products row: id, name, category, price, supplier, created_at.
name, category and supplier can be missing. -/
structure Product where
  id : Int
  name : Option String
  category : Option String
  price : ℚ
  supplier : Option String
  created_at : Int
  deriving Repr, DecidableEq

/-- A sales row: id, customer_id, product_id, date, quantity, unit_price,
total_amount. quantity can be missing (repaired with fillna(1)). -/
structure Sale where
  id : Int
  customer_id : Int
  product_id : Int
  date : Int
  quantity : Option ℚ
  unit_price : ℚ
  total_amount : ℚ
  deriving Repr, DecidableEq

/-- An inventory row: id, product_id, current_stock, reorder_level, max_stock,
turnover_rate, last_updated. turnover_rate can be missing (fillna(1.0)). -/
structure InventoryRecord where
  id : Int
  product_id : Int
  current_stock : ℚ
  reorder_level : ℚ
  max_stock : ℚ
  turnover_rate : Option ℚ
  last_updated : Int
  deriving Repr, DecidableEq

/-- The four in-memory tables of the pipeline. -/
structure Tables where
  customers : List Customer
  products : List Product
  sales : List Sale
  inventory : List InventoryRecord
  deriving Repr, DecidableEq

/- ---------- DataCleaner: clean_data ---------- -/

/-- Customers step of clean_data: drop duplicate ids (keep first), fill missing
name with the sentinel, missing age with the median of the present ages
(fillna with a NaN median leaves NaN), missing region with Unknown, then drop
rows with age below 18 or above 100 (a NaN age fails both comparisons and the
row is dropped). -/
def clean_customers (cs : List Customer) : List Customer :=
  let deduped := distinctBy (fun c => c.id) cs
  let med := medianQ (deduped.filterMap (fun c => c.age))
  let filled := deduped.map fun c =>
    { c with name := some (c.name.getD "Unknown Customer"),
             age := c.age <|> med,
             region := some (c.region.getD "Unknown") }
  filled.filter fun c =>
    match c.age with
    | some a => decide (18 ≤ a ∧ a ≤ 100)
    | none => false

/-- Products step of clean_data: drop duplicate ids (keep first), fill missing
name, category and supplier with sentinels, then drop rows whose price is
non-positive or above 10000. -/
def clean_products (ps : List Product) : List Product :=
  let deduped := distinctBy (fun p => p.id) ps
  let filled := deduped.map fun p =>
    { p with name := some (p.name.getD "Unknown Product"),
             category := some (p.category.getD "Other"),
             supplier := some (p.supplier.getD "Unknown Supplier") }
  filled.filter fun p => decide (0 < p.price ∧ p.price ≤ 10000)

/-- Sales step of clean_data: drop duplicate ids (keep first), drop rows whose
customer_id or product_id is not among the cleaned ids, fill missing quantity
with 1, then drop rows with non-positive quantity or total_amount. The date
column is already calendar-typed in this embedding, so pd.to_datetime is the
identity here. -/
def clean_sales (valid_customers valid_products : List Int) (ss : List Sale) : List Sale :=
  let deduped := distinctBy (fun s => s.id) ss
  let validated := deduped.filter fun s =>
    decide (s.customer_id ∈ valid_customers) && decide (s.product_id ∈ valid_products)
  let filled := validated.map fun s => { s with quantity := some (s.quantity.getD 1) }
  let posQty := filled.filter fun s =>
    match s.quantity with
    | some q => decide (0 < q)
    | none => false
  posQty.filter fun s => decide (0 < s.total_amount)

/-- The inventory row synthesized for a cleaned product id with no inventory
row: current_stock=0, reorder_level=10, max_stock=100, turnover_rate=1.0,
last_updated = run date. -/
def synthInventory (today : Int) (product_id : Int) : InventoryRecord :=
  { id := product_id, product_id := product_id, current_stock := 0,
    reorder_level := 10, max_stock := 100, turnover_rate := some 1,
    last_updated := today }

/-- Per-row repair of the inventory step: clip current_stock at 0 and default
a missing turnover_rate to 1.0. -/
def fixInventoryRow (r : InventoryRecord) : InventoryRecord :=
  { r with current_stock := max r.current_stock 0,
           turnover_rate := some (r.turnover_rate.getD 1) }

/-- Inventory step of clean_data: append a synthesized row for every cleaned
product id with no inventory row, then clip stocks and default turnover
rates. No row is ever dropped. -/
def clean_inventory (today : Int) (product_ids : List Int) (inv : List InventoryRecord) :
    List InventoryRecord :=
  let missing := product_ids.filter fun p =>
    !(decide (p ∈ inv.map (fun r => r.product_id)))
  let withNew := inv ++ missing.map (synthInventory today)
  withNew.map fixInventoryRow

/-- clean_data: the four table-cleaning steps in source order. Sales are
validated against the already-cleaned customer and product id sets, and the
inventory backfill runs over the already-cleaned product ids. -/
def clean_data (today : Int) (t : Tables) : Tables :=
  let cs := clean_customers t.customers
  let ps := clean_products t.products
  let ss := clean_sales (cs.map (fun c => c.id)) (ps.map (fun p => p.id)) t.sales
  let inv := clean_inventory today (ps.map (fun p => p.id)) t.inventory
  ⟨cs, ps, ss, inv⟩

/- ---------- MetricsAggregator: generate_metrics ---------- -/

/-- Inner merge of sales with customers on customer_id = id: every sale row is
paired with every matching customer row. -/
def sales_with_customer (ss : List Sale) (cs : List Customer) : List (Sale × Customer) :=
  ss.flatMap fun s => (cs.filter fun c => decide (c.id = s.customer_id)).map fun c => (s, c)

/-- The region group labels of the merged frame: groupby drops rows whose key
is NaN and iterates the distinct labels in sorted order. -/
def region_keys (rows : List (Sale × Customer)) : List String :=
  sortBy strLe (distinctBy id (rows.filterMap fun sc => sc.2.region))

/-- The rows of one region group. -/
def region_rows (rows : List (Sale × Customer)) (r : String) : List (Sale × Customer) :=
  rows.filter fun sc => decide (sc.2.region = some r)

/-- One row of revenue_by_region: sum, count and mean of total_amount,
rounded to 2 decimals. -/
structure RegionRevenue where
  total_revenue : ℚ
  total_sales : Nat
  avg_order_value : ℚ
  deriving Repr, DecidableEq

/-- revenue_by_region: join sales to customers, group by region, aggregate
total_amount with sum, count and mean, rounded to 2 decimals. -/
def revenue_by_region (ss : List Sale) (cs : List Customer) : List (String × RegionRevenue) :=
  let rows := sales_with_customer ss cs
  (region_keys rows).map fun r =>
    let g := region_rows rows r
    let amounts := g.map fun sc => sc.1.total_amount
    (r, { total_revenue := round2 amounts.sum,
          total_sales := g.length,
          avg_order_value := round2 (meanQ amounts) })

/-- Inner merge of sales with products on product_id = id. -/
def sales_with_product (ss : List Sale) (ps : List Product) : List (Sale × Product) :=
  ss.flatMap fun s => (ps.filter fun p => decide (p.id = s.product_id)).map fun p => (s, p)

/-- The (product_id, name, category) key of a merged row; none when a key
component is NaN (groupby drops such rows). -/
def product_key (sp : Sale × Product) : Option (Int × String × String) :=
  match sp.2.name, sp.2.category with
  | some n, some c => some (sp.1.product_id, n, c)
  | _, _ => none

/-- Sorted iteration order of the (product_id, name, category) group keys. -/
def prodKeyLe (a b : Int × String × String) : Bool :=
  if a.1 < b.1 then true
  else if b.1 < a.1 then false
  else if strLe a.2.1 b.2.1 && !(strLe b.2.1 a.2.1) then true
  else if strLe b.2.1 a.2.1 && !(strLe a.2.1 b.2.1) then false
  else strLe a.2.2 b.2.2

/-- The distinct group keys of the sales-products merge, in sorted order. -/
def product_keys (rows : List (Sale × Product)) : List (Int × String × String) :=
  sortBy prodKeyLe (distinctBy id (rows.filterMap product_key))

/-- One row of top_products: summed quantity and revenue and the sale count of
one (product_id, name, category) group, rounded to 2 decimals. -/
structure TopProduct where
  product_id : Int
  name : String
  category : String
  total_quantity_sold : ℚ
  total_revenue : ℚ
  number_of_sales : Nat
  deriving Repr, DecidableEq

/-- The grouped (pre-sort) product table, in group iteration order. -/
def grouped_products (rows : List (Sale × Product)) : List TopProduct :=
  (product_keys rows).map fun k =>
    let g := rows.filter fun sp => decide (product_key sp = some k)
    { product_id := k.1, name := k.2.1, category := k.2.2,
      total_quantity_sold := round2 (g.filterMap fun sp => sp.1.quantity).sum,
      total_revenue := round2 ((g.map fun sp => sp.1.total_amount).sum),
      number_of_sales := g.length }

/-- Descending comparison on summed revenue used by sort_values(ascending=False). -/
def revDescLe (a b : TopProduct) : Bool := decide (b.total_revenue ≤ a.total_revenue)

/-- top_products: group the sales-products merge, sort descending by summed
revenue and keep the first 20 rows. sort_values uses the numpy quicksort by
default, which guarantees a permutation of the groups sorted by revenue but
not the relative order of equal-revenue groups; this executable refinement
realizes one such permutation. -/
def top_products (ss : List Sale) (ps : List Product) : List TopProduct :=
  (sortBy revDescLe (grouped_products (sales_with_product ss ps))).take 20

/-- One row of category_performance. -/
structure CategoryPerf where
  total_revenue : ℚ
  avg_order_value : ℚ
  total_quantity : ℚ
  number_of_sales : Nat
  deriving Repr, DecidableEq

/-- category_performance: group the sales-products merge by category and sort
descending by total revenue. -/
def category_performance (ss : List Sale) (ps : List Product) : List (String × CategoryPerf) :=
  let rows := sales_with_product ss ps
  sortBy (fun a b => decide (b.2.total_revenue ≤ a.2.total_revenue))
    ((sortBy strLe (distinctBy id (rows.filterMap fun sp => sp.2.category))).map fun c =>
      let g := rows.filter fun sp => decide (sp.2.category = some c)
      let amounts := g.map fun sp => sp.1.total_amount
      (c, { total_revenue := round2 amounts.sum,
            avg_order_value := round2 (meanQ amounts),
            total_quantity := round2 (g.filterMap fun sp => sp.1.quantity).sum,
            number_of_sales := g.length }))

/-- pd.cut(age, bins=[0,25,35,50,65,100], labels=[18-25,26-35,36-50,51-65,65+]):
right-closed intervals; ages outside every bin (or NaN) get a NaN label. -/
def age_group_of (a : Option ℚ) : Option String :=
  match a with
  | none => none
  | some x =>
      if x ≤ 0 then none
      else if x ≤ 25 then some "18-25"
      else if x ≤ 35 then some "26-35"
      else if x ≤ 50 then some "36-50"
      else if x ≤ 65 then some "51-65"
      else if x ≤ 100 then some "65+"
      else none

/-- One row of the customer_metrics frame: the per-customer sales aggregates,
the merged-in demographics, and the derived churn and age-group columns. -/
structure CustomerRow where
  id : Int
  total_spent : ℚ
  avg_order_value : ℚ
  number_of_orders : Nat
  first_purchase : Int
  last_purchase : Int
  age : Option ℚ
  region : Option String
  days_since_last_purchase : Int
  is_churned : Bool
  age_group : Option String
  deriving Repr, DecidableEq

/-- The distinct customer ids appearing in sales, in the sorted group
iteration order of groupby(customer_id). -/
def customer_ids (ss : List Sale) : List Int :=
  sortBy (fun a b => decide (a ≤ b)) (distinctBy id (ss.map fun s => s.customer_id))

/-- customer_metrics: group sales by customer_id (sum, mean and count of
total_amount, min and max of date, rounded to 2 decimals), inner-merge the
customer age and region, then derive days_since_last_purchase from the run
date and is_churned as days > 90, and bucket age with pd.cut. -/
def customer_metrics (today : Int) (ss : List Sale) (cs : List Customer) : List CustomerRow :=
  (customer_ids ss).flatMap fun cid =>
    let g := ss.filter fun s => decide (s.customer_id = cid)
    let amounts := g.map fun s => s.total_amount
    let last := listMaxInt (g.map fun s => s.date)
    (cs.filter fun c => decide (c.id = cid)).map fun c =>
      { id := cid,
        total_spent := round2 amounts.sum,
        avg_order_value := round2 (meanQ amounts),
        number_of_orders := g.length,
        first_purchase := listMinInt (g.map fun s => s.date),
        last_purchase := last,
        age := c.age,
        region := c.region,
        days_since_last_purchase := today - last,
        is_churned := decide (90 < today - last),
        age_group := age_group_of c.age }

/-- One row of age_group_analysis. -/
structure AgeGroupStats where
  avg_spent : ℚ
  total_spent : ℚ
  avg_orders : ℚ
  churn_rate : ℚ
  deriving Repr, DecidableEq

/-- The fixed band labels of pd.cut, in category order. -/
def age_group_labels : List String := ["18-25", "26-35", "36-50", "51-65", "65+"]

/-- age_group_analysis: group customer_metrics by age band (observed=True:
only non-empty bands appear, in category order), with mean and sum of
total_spent, mean order count, and mean churn flag, rounded to 2 decimals. -/
def age_group_analysis (rows : List CustomerRow) : List (String × AgeGroupStats) :=
  age_group_labels.filterMap fun lbl =>
    let g := rows.filter fun r => decide (r.age_group = some lbl)
    if g.isEmpty then none
    else some (lbl,
      { avg_spent := round2 (meanQ (g.map fun r => r.total_spent)),
        total_spent := round2 (g.map fun r => r.total_spent).sum,
        avg_orders := round2 (meanQ (g.map fun r => (r.number_of_orders : ℚ))),
        churn_rate := round2 (meanQ (g.map fun r => if r.is_churned then 1 else 0)) })

/-- Inner merge of inventory with products on product_id = id. -/
def inventory_with_product (inv : List InventoryRecord) (ps : List Product) :
    List (InventoryRecord × Product) :=
  inv.flatMap fun r => (ps.filter fun p => decide (p.id = r.product_id)).map fun p => (r, p)

/-- One row of the low-stock (at-risk) product list. -/
structure LowStockRow where
  product_id : Int
  name : Option String
  category : Option String
  current_stock : ℚ
  reorder_level : ℚ
  turnover_rate : Option ℚ
  deriving Repr, DecidableEq

/-- low_stock_products: the merged inventory rows with current_stock at or
below reorder_level, projected to the reported columns. -/
def low_stock_products (inv : List InventoryRecord) (ps : List Product) : List LowStockRow :=
  ((inventory_with_product inv ps).filter fun rp =>
      decide (rp.1.current_stock ≤ rp.1.reorder_level)).map fun rp =>
    { product_id := rp.1.product_id, name := rp.2.name, category := rp.2.category,
      current_stock := rp.1.current_stock, reorder_level := rp.1.reorder_level,
      turnover_rate := rp.1.turnover_rate }

/-- One row of the per-category turnover aggregates. -/
structure TurnoverStats where
  avg_turnover : ℚ
  min_turnover : ℚ
  max_turnover : ℚ
  deriving Repr, DecidableEq

/-- turnover_analysis: group the inventory-products merge by category and
aggregate turnover_rate with mean, min and max over the present values. -/
def turnover_by_category (inv : List InventoryRecord) (ps : List Product) :
    List (String × TurnoverStats) :=
  let rows := inventory_with_product inv ps
  (sortBy strLe (distinctBy id (rows.filterMap fun rp => rp.2.category))).map fun c =>
    let ts := (rows.filter fun rp => decide (rp.2.category = some c)).filterMap
      fun rp => rp.1.turnover_rate
    (c, { avg_turnover := round2 (meanQ ts),
          min_turnover := round2 ((ts.min?).getD 0),
          max_turnover := round2 ((ts.max?).getD 0) })

/-- customer_metrics_summary. churn_rate and the two averages are means over
the customer_metrics rows (none models the NaN mean of an empty frame). -/
structure CustomerSummary where
  total_customers : Nat
  active_customers : Nat
  churned_customers : Nat
  churn_rate : Option ℚ
  avg_customer_value : Option ℚ
  avg_order_value : Option ℚ
  deriving Repr, DecidableEq

/-- The is_churned mean of the customer_metrics frame (NaN when empty),
used both in the summary and by the churn insight gate. -/
def churn_rate_of (rows : List CustomerRow) : Option ℚ :=
  if rows.isEmpty then none
  else some (meanQ (rows.map fun r => if r.is_churned then 1 else 0))

/-- customer_metrics_summary from the customer_metrics frame. -/
def customer_metrics_summary (rows : List CustomerRow) : CustomerSummary :=
  { total_customers := rows.length,
    active_customers := (rows.filter fun r => !r.is_churned).length,
    churned_customers := (rows.filter fun r => r.is_churned).length,
    churn_rate := churn_rate_of rows,
    avg_customer_value :=
      if rows.isEmpty then none else some (meanQ (rows.map fun r => r.total_spent)),
    avg_order_value :=
      if rows.isEmpty then none else some (meanQ (rows.map fun r => r.avg_order_value)) }

/- ---------- InsightEngine: generate_business_insights ---------- -/

/-- A business insight. The description and recommendation fields of the source
are presentation strings interpolating the same numbers and are not modelled;
title, impact and category identify each rule's output. -/
structure Insight where
  title : String
  impact : String
  category : String
  deriving Repr, DecidableEq

/-- The rule-1 insight (regional performance leader). -/
def insRegional : Insight :=
  { title := "Regional Performance Leader", impact := "High",
    category := "Regional Analysis" }

/-- The rule-2 insight (category dominance, always emitted). -/
def insCategory : Insight :=
  { title := "Category Dominance", impact := "High",
    category := "Category Performance" }

/-- The rule-3 insight (high-value customer segment). -/
def insAge : Insight :=
  { title := "High-Value Customer Segment", impact := "Medium",
    category := "Customer Segmentation" }

/-- The rule-4 insight (inventory risk alert). -/
def insInventory : Insight :=
  { title := "Inventory Risk Alert", impact := "Critical",
    category := "Inventory Management" }

/-- The rule-5 insight (customer retention concern). -/
def insChurn : Insight :=
  { title := "Customer Retention Concern", impact := "High",
    category := "Customer Retention" }

/-- generate_business_insights. idxmax on the empty revenue_by_region or
category_performance frame raises ValueError (modelled as Except.error,
checked in source evaluation order); otherwise the five rules append their
insights in fixed order, each gated by its own condition: top region revenue
above 1.2 times the regional mean, the always-on category dominance insight,
non-empty age-group analysis, a non-empty low-stock list, and an is_churned
mean above 0.3 (the NaN mean of an empty customer_metrics frame fails the
comparison). -/
def generate_business_insights (rbr : List (String × RegionRevenue))
    (catPerf : List (String × CategoryPerf))
    (ageAnalysis : List (String × AgeGroupStats))
    (custRows : List CustomerRow)
    (lowStock : List LowStockRow) : Except String (List Insight) :=
  if rbr.isEmpty then Except.error "attempt to get argmax of an empty sequence"
  else if catPerf.isEmpty then Except.error "attempt to get argmax of an empty sequence"
  else
    let revs := rbr.map fun e => e.2.total_revenue
    let top_region_revenue := listMaxQ revs
    let avg_revenue := meanQ revs
    let regional :=
      if decide (avg_revenue * (6/5) < top_region_revenue) then [insRegional] else []
    let categoryIns := [insCategory]
    let ageIns := if ageAnalysis.isEmpty then [] else [insAge]
    let invIns := if lowStock.isEmpty then [] else [insInventory]
    let churnIns :=
      match churn_rate_of custRows with
      | some r => if decide ((3/10 : ℚ) < r) then [insChurn] else []
      | none => []
    Except.ok (regional ++ categoryIns ++ ageIns ++ invIns ++ churnIns)

/-- The consolidated processed_data bundle (monthly_trends is not referenced
by any verified property and is omitted). -/
structure MetricsBundle where
  revenue_by_region : List (String × RegionRevenue)
  top_products : List TopProduct
  category_performance : List (String × CategoryPerf)
  customer_metrics_summary : CustomerSummary
  age_group_analysis : List (String × AgeGroupStats)
  low_stock_products : List LowStockRow
  total_products_at_risk : Nat
  turnover_by_category : List (String × TurnoverStats)
  business_insights : List Insight
  deriving Repr, DecidableEq

/-- generate_metrics: compute all aggregates of the cleaned tables and the
business insights; an exception from the insight engine aborts the stage. -/
def generate_metrics (today : Int) (t : Tables) : Except String MetricsBundle :=
  let rbr := revenue_by_region t.sales t.customers
  let tp := top_products t.sales t.products
  let cp := category_performance t.sales t.products
  let cm := customer_metrics today t.sales t.customers
  let aga := age_group_analysis cm
  let ls := low_stock_products t.inventory t.products
  let tc := turnover_by_category t.inventory t.products
  match generate_business_insights rbr cp aga cm ls with
  | Except.error e => Except.error e
  | Except.ok ins =>
      Except.ok { revenue_by_region := rbr, top_products := tp,
                  category_performance := cp,
                  customer_metrics_summary := customer_metrics_summary cm,
                  age_group_analysis := aga, low_stock_products := ls,
                  total_products_at_risk := ls.length, turnover_by_category := tc,
                  business_insights := ins }

/- ---------- PipelineOrchestrator state and stage preconditions ---------- -/

/-- The pipeline object state: the four DataFrame attributes, none before
load_data has run. -/
structure PipelineState where
  customers_df : Option (List Customer)
  products_df : Option (List Product)
  sales_df : Option (List Sale)
  inventory_df : Option (List InventoryRecord)
  deriving Repr, DecidableEq

/-- clean_data with its precondition: raises ValueError (modelled as
Except.error) when any table attribute is still None, before touching any
table; otherwise replaces the four tables by their cleaned versions. -/
def clean_data_checked (today : Int) (st : PipelineState) : Except String PipelineState :=
  match st.customers_df, st.products_df, st.sales_df, st.inventory_df with
  | some cs, some ps, some ss, some inv =>
      let t := clean_data today ⟨cs, ps, ss, inv⟩
      Except.ok ⟨some t.customers, some t.products, some t.sales, some t.inventory⟩
  | _, _, _, _ => Except.error "Data must be loaded before cleaning. Call load_data() first."

/-- generate_metrics with its precondition: raises ValueError when any table
attribute is still None. -/
def generate_metrics_checked (today : Int) (st : PipelineState) : Except String MetricsBundle :=
  match st.customers_df, st.products_df, st.sales_df, st.inventory_df with
  | some cs, some ps, some ss, some inv => generate_metrics today ⟨cs, ps, ss, inv⟩
  | _, _, _, _ => Except.error "Data must be loaded and cleaned before generating metrics."

/- ---------- Concrete inputs used by witnesses and counterexamples ---------- -/


/-- A cleaned-form customer used by concrete instantiations. -/
def wCust : Customer :=
  { id := 2, name := some "B", age := some 30, region := some "North", created_at := 0 }

/-- A second cleaned-form customer (no sales reference it). -/
def wCust3 : Customer :=
  { id := 3, name := some "C", age := some 40, region := some "South", created_at := 0 }

/-- A cleaned-form product used by concrete instantiations. -/
def wProd : Product :=
  { id := 11, name := some "P11", category := some "Books", price := 20,
    supplier := some "S", created_at := 0 }

/-- A cleaned-form sale referencing wCust and wProd. -/
def wSale : Sale :=
  { id := 100, customer_id := 2, product_id := 11, date := 10, quantity := some 2,
    unit_price := 20, total_amount := 40 }

/-- An inventory row whose product_id references no product, with a negative
stock and a missing turnover rate. -/
def wOrphanInv : InventoryRecord :=
  { id := 50, product_id := 99, current_stock := -3, reorder_level := 5,
    max_stock := 10, turnover_rate := none, last_updated := 0 }

/-- A minimal consistent input table set. -/
def wTables : Tables := ⟨[wCust], [wProd], [wSale], []⟩

/-- wTables with the orphan inventory row added. -/
def wTablesInv : Tables := ⟨[wCust], [wProd], [wSale], [wOrphanInv]⟩

/-- Input tables with a second customer that has no sales. -/
def c4Tables : Tables := ⟨[wCust, wCust3], [wProd], [wSale], []⟩

/-- A one-region revenue aggregate. -/
def wRR : List (String × RegionRevenue) :=
  [("North", { total_revenue := 40, total_sales := 1, avg_order_value := 40 })]

/-- A two-region revenue aggregate with equal revenues. -/
def wRR2 : List (String × RegionRevenue) :=
  [("North", { total_revenue := 40, total_sales := 1, avg_order_value := 40 }),
   ("South", { total_revenue := 40, total_sales := 1, avg_order_value := 40 })]

/-- A one-category performance aggregate. -/
def wCP : List (String × CategoryPerf) :=
  [("Books", { total_revenue := 40, avg_order_value := 40, total_quantity := 2,
               number_of_sales := 1 })]

/-- A churned customer_metrics row. -/
def wRowChurned : CustomerRow :=
  { id := 1, total_spent := 40, avg_order_value := 40, number_of_orders := 1,
    first_purchase := 10, last_purchase := 10, age := some 30, region := some "North",
    days_since_last_purchase := 100, is_churned := true, age_group := some "26-35" }

/-- An active customer_metrics row. -/
def wRowActive : CustomerRow :=
  { id := 1, total_spent := 40, avg_order_value := 40, number_of_orders := 1,
    first_purchase := 10, last_purchase := 10, age := some 30, region := some "North",
    days_since_last_purchase := 5, is_churned := false, age_group := some "26-35" }

/-- Ten customer_metrics rows with an is_churned mean of exactly 3/10. -/
def wChurnRows : List CustomerRow :=
  [wRowChurned, wRowChurned, wRowChurned, wRowActive, wRowActive, wRowActive,
   wRowActive, wRowActive, wRowActive, wRowActive]

/-- A product sharing its id with dupProdB but with a different name. -/
def dupProdA : Product :=
  { id := 11, name := some "A", category := some "X", price := 20,
    supplier := some "S", created_at := 0 }

/-- A product sharing its id with dupProdA but with a different name. -/
def dupProdB : Product :=
  { id := 11, name := some "B", category := some "X", price := 20,
    supplier := some "S", created_at := 0 }

/- ---------- Theorems ---------- -/

/- ---------- Lemmas about the helpers ---------- -/

theorem dropDupAux_subset {α κ : Type} [DecidableEq κ] {key : α → κ} {a : α} :
    ∀ {l : List α} {seen : List κ}, a ∈ dropDupAux key seen l → a ∈ l := by
  intro l
  induction l with
  | nil => intro seen h; simp [dropDupAux] at h
  | cons x xs ih =>
    intro seen h
    by_cases hx : key x ∈ seen
    · simp only [dropDupAux, if_pos hx] at h
      exact List.mem_cons_of_mem x (ih h)
    · simp only [dropDupAux, if_neg hx, List.mem_cons] at h
      rcases h with h | h
      · exact h ▸ List.mem_cons_self x xs
      · exact List.mem_cons_of_mem x (ih h)

theorem dropDupAux_key_not_seen {α κ : Type} [DecidableEq κ] {key : α → κ} {a : α} :
    ∀ {l : List α} {seen : List κ}, a ∈ dropDupAux key seen l → key a ∉ seen := by
  intro l
  induction l with
  | nil => intro seen h; simp [dropDupAux] at h
  | cons x xs ih =>
    intro seen h
    by_cases hx : key x ∈ seen
    · simp only [dropDupAux, if_pos hx] at h
      exact ih h
    · simp only [dropDupAux, if_neg hx, List.mem_cons] at h
      rcases h with h | h
      · exact h ▸ hx
      · intro hmem
        exact ih h (List.mem_cons_of_mem _ hmem)

theorem pairwise_dropDupAux {α κ : Type} [DecidableEq κ] {key : α → κ} :
    ∀ {l : List α} {seen : List κ},
      (dropDupAux key seen l).Pairwise (fun a b => key a ≠ key b) := by
  intro l
  induction l with
  | nil => intro seen; simp [dropDupAux]
  | cons x xs ih =>
    intro seen
    by_cases hx : key x ∈ seen
    · simp only [dropDupAux, if_pos hx]
      exact ih
    · simp only [dropDupAux, if_neg hx]
      refine List.Pairwise.cons ?_ ih
      intro b hb hkey
      have := dropDupAux_key_not_seen hb
      exact this (hkey ▸ List.mem_cons_self _ _)

theorem dropDupAux_eq_self {α κ : Type} [DecidableEq κ] {key : α → κ} :
    ∀ {l : List α} {seen : List κ},
      l.Pairwise (fun a b => key a ≠ key b) → (∀ a ∈ l, key a ∉ seen) →
      dropDupAux key seen l = l := by
  intro l
  induction l with
  | nil => intro seen _ _; simp [dropDupAux]
  | cons x xs ih =>
    intro seen hpw hseen
    rcases List.pairwise_cons.mp hpw with ⟨hx, htail⟩
    have hxs : key x ∉ seen := hseen x (List.mem_cons_self x xs)
    simp only [dropDupAux, if_neg hxs]
    congr 1
    refine ih htail ?_
    intro a ha
    simp only [List.mem_cons]
    rintro (h | h)
    · exact hx a ha h.symm
    · exact hseen a (List.mem_cons_of_mem x ha) h

theorem mem_dropDupAux_id {α : Type} [DecidableEq α] {a : α} :
    ∀ {l : List α} {seen : List α}, a ∈ l → a ∉ seen → a ∈ dropDupAux id seen l := by
  intro l
  induction l with
  | nil => intro seen h _; simp at h
  | cons x xs ih =>
    intro seen ha hseen
    by_cases hx : (id x : α) ∈ seen
    · simp only [dropDupAux, if_pos hx]
      rcases List.mem_cons.mp ha with h | h
      · exact absurd (h ▸ hx) hseen
      · exact ih h hseen
    · simp only [dropDupAux, if_neg hx, List.mem_cons]
      rcases List.mem_cons.mp ha with h | h
      · exact Or.inl h
      · by_cases hax : a = x
        · exact Or.inl hax
        · refine Or.inr (ih h ?_)
          simp only [List.mem_cons]
          rintro (hc | hc)
          · exact hax hc
          · exact hseen hc

theorem distinctBy_subset {α κ : Type} [DecidableEq κ] {key : α → κ} {a : α} {l : List α}
    (h : a ∈ distinctBy key l) : a ∈ l :=
  dropDupAux_subset h

theorem pairwise_distinctBy {α κ : Type} [DecidableEq κ] {key : α → κ} {l : List α} :
    (distinctBy key l).Pairwise (fun a b => key a ≠ key b) :=
  pairwise_dropDupAux

theorem distinctBy_eq_self {α κ : Type} [DecidableEq κ] {key : α → κ} {l : List α}
    (h : l.Pairwise (fun a b => key a ≠ key b)) : distinctBy key l = l :=
  dropDupAux_eq_self h (by intro a _; simp)

theorem mem_distinctBy_id {α : Type} [DecidableEq α] {a : α} {l : List α}
    (h : a ∈ l) : a ∈ distinctBy id l :=
  mem_dropDupAux_id h (by simp)

theorem nodup_distinctBy_id {α : Type} [DecidableEq α] {l : List α} :
    (distinctBy id l).Nodup := by
  have h := @pairwise_distinctBy α α _ id l
  exact h

theorem insertSorted_perm {α : Type} (le : α → α → Bool) (a : α) :
    ∀ l : List α, (insertSorted le a l).Perm (a :: l) := by
  intro l
  induction l with
  | nil => simp [insertSorted]
  | cons b bs ih =>
    by_cases hc : (le b a && !(le a b)) = true
    · simp only [insertSorted, if_pos hc]
      exact (List.Perm.cons b ih).trans (List.Perm.swap a b bs)
    · simp [insertSorted, hc]

theorem sortBy_perm {α : Type} (le : α → α → Bool) :
    ∀ l : List α, (sortBy le l).Perm l := by
  intro l
  induction l with
  | nil => simp [sortBy]
  | cons x xs ih =>
    exact (insertSorted_perm le x (sortBy le xs)).trans (List.Perm.cons x ih)

theorem pairwise_insertSorted {α : Type} {le : α → α → Bool}
    (htrans : ∀ a b c, le a b = true → le b c = true → le a c = true)
    (htot : ∀ a b, le a b = true ∨ le b a = true) (a : α) :
    ∀ {l : List α}, l.Pairwise (fun x y => le x y = true) →
      (insertSorted le a l).Pairwise (fun x y => le x y = true) := by
  intro l
  induction l with
  | nil => intro _; simp [insertSorted]
  | cons b bs ih =>
    intro hpw
    rcases List.pairwise_cons.mp hpw with ⟨hb, htail⟩
    by_cases hc : (le b a && !(le a b)) = true
    · simp only [insertSorted, if_pos hc]
      refine List.pairwise_cons.mpr ⟨?_, ih htail⟩
      intro c hc2
      have hmem := (insertSorted_perm le a bs).mem_iff.mp hc2
      rcases List.mem_cons.mp hmem with h | h
      · have hc2 : le b a = true ∧ !(le a b) = true := by simpa using hc
        exact h ▸ hc2.1
      · exact hb c h
    · simp only [insertSorted, if_neg hc]
      refine List.pairwise_cons.mpr ⟨?_, hpw⟩
      intro c hc2
      have hab : le a b = true := by
        rcases htot a b with h | h
        · exact h
        · by_cases hab2 : le a b = true
          · exact hab2
          · exfalso
            apply hc
            simp [h, hab2]
      rcases List.mem_cons.mp hc2 with h | h
      · exact h ▸ hab
      · exact htrans a b c hab (hb c h)

theorem sortBy_pairwise {α : Type} {le : α → α → Bool}
    (htrans : ∀ a b c, le a b = true → le b c = true → le a c = true)
    (htot : ∀ a b, le a b = true ∨ le b a = true) :
    ∀ l : List α, (sortBy le l).Pairwise (fun x y => le x y = true) := by
  intro l
  induction l with
  | nil => simp [sortBy]
  | cons x xs ih => exact pairwise_insertSorted htrans htot x ih

theorem filter_insertSorted_pos {α : Type} {le : α → α → Bool} {p : α → Bool} {a : α}
    (hpa : p a = true) (hle : ∀ b, p b = true → le a b = true) :
    ∀ l : List α, (insertSorted le a l).filter p = a :: l.filter p := by
  intro l
  induction l with
  | nil => simp [insertSorted, hpa]
  | cons b bs ih =>
    by_cases hc : (le b a && !(le a b)) = true
    · have hpb : p b = false := by
        by_cases h : p b = true
        · exfalso
          have hab := hle b h
          have hc2 : le b a = true ∧ !(le a b) = true := by simpa using hc
          simp [hab] at hc2
        · simp at h; exact h
      simp only [insertSorted, if_pos hc]
      rw [List.filter_cons_of_neg (by simp [hpb]), ih, List.filter_cons_of_neg (by simp [hpb])]
    · simp only [insertSorted, if_neg hc]
      rw [List.filter_cons_of_pos (by simp [hpa])]

theorem filter_insertSorted_neg {α : Type} {le : α → α → Bool} {p : α → Bool} {a : α}
    (hpa : p a = false) :
    ∀ l : List α, (insertSorted le a l).filter p = l.filter p := by
  intro l
  induction l with
  | nil => simp [insertSorted, hpa]
  | cons b bs ih =>
    by_cases hc : (le b a && !(le a b)) = true
    · simp only [insertSorted, if_pos hc]
      by_cases hpb : p b = true
      · rw [List.filter_cons_of_pos (by simp [hpb]), ih,
          List.filter_cons_of_pos (by simp [hpb])]
      · have : p b = false := by simp at hpb; exact hpb
        rw [List.filter_cons_of_neg (by simp [this]), ih,
          List.filter_cons_of_neg (by simp [this])]
    · simp only [insertSorted, if_neg hc]
      rw [List.filter_cons_of_neg (by simp [hpa])]

theorem sortBy_filter_tied {α : Type} {le : α → α → Bool} {p : α → Bool}
    (hp : ∀ a b, p a = true → p b = true → le a b = true) :
    ∀ l : List α, (sortBy le l).filter p = l.filter p := by
  intro l
  induction l with
  | nil => simp [sortBy]
  | cons x xs ih =>
    by_cases hpx : p x = true
    · simp only [sortBy]
      rw [filter_insertSorted_pos hpx (fun b hb => hp x b hpx hb), ih,
        List.filter_cons_of_pos (by simp [hpx])]
    · have hfx : p x = false := by simp at hpx; exact hpx
      simp only [sortBy]
      rw [filter_insertSorted_neg hfx, ih, List.filter_cons_of_neg (by simp [hfx])]

theorem filter_eq_singleton_of_key {α : Type} {key : α → Int} {a : α} :
    ∀ {l : List α}, l.Pairwise (fun x y => key x ≠ key y) → a ∈ l →
      l.filter (fun b => decide (key b = key a)) = [a] := by
  intro l
  induction l with
  | nil => intro _ h; simp at h
  | cons x xs ih =>
    intro hpw ha
    rcases List.pairwise_cons.mp hpw with ⟨hx, htail⟩
    rcases List.mem_cons.mp ha with h | h
    · subst h
      rw [List.filter_cons_of_pos (by simp)]
      have : xs.filter (fun b => decide (key b = key a)) = [] := by
        rw [List.filter_eq_nil_iff]
        intro b hb
        simp only [decide_eq_true_eq]
        exact fun hk => hx b hb hk.symm
      rw [this]
    · rw [List.filter_cons_of_neg (by simp; exact hx a h), ih htail h]

theorem sum_map_zero {α : Type} (l : List α) : (l.map fun _ => (0 : ℚ)).sum = 0 := by
  induction l with
  | nil => simp
  | cons x xs ih => simp [ih]

theorem sum_map_add {α : Type} (f g : α → ℚ) (l : List α) :
    (l.map fun a => f a + g a).sum = (l.map f).sum + (l.map g).sum := by
  induction l with
  | nil => simp
  | cons x xs ih => simp [ih]; ring

theorem sum_ite_mem {κ : Type} [DecidableEq κ] {rb : κ} (c : ℚ) :
    ∀ {keys : List κ}, keys.Nodup → rb ∈ keys →
      (keys.map fun r => if r = rb then c else 0).sum = c := by
  intro keys
  induction keys with
  | nil => intro _ h; simp at h
  | cons k ks ih =>
    intro hnd hmem
    rcases List.nodup_cons.mp hnd with ⟨hk, hnd2⟩
    by_cases hrk : k = rb
    · simp only [List.map_cons, List.sum_cons, if_pos hrk]
      have hz : (ks.map fun r => if r = rb then c else 0).sum = 0 := by
        have hall : ∀ r ∈ ks, (if r = rb then c else 0) = 0 := by
          intro r hr
          rw [if_neg]
          intro he
          have hrk2 : r = k := he.trans hrk.symm
          exact hk (hrk2 ▸ hr)
        rw [List.map_congr_left hall, sum_map_zero]
      rw [hz, add_zero]
    · have h : rb ∈ ks := by
        rcases List.mem_cons.mp hmem with h | h
        · exact absurd h.symm hrk
        · exact h
      simp only [List.map_cons, List.sum_cons, if_neg hrk]
      rw [ih hnd2 h, zero_add]

theorem sum_partition {β : Type} (keys : List String) (rows : List β)
    (keyOf : β → Option String) (f : β → ℚ)
    (hnd : keys.Nodup)
    (hcov : ∀ b ∈ rows, ∃ r ∈ keys, keyOf b = some r) :
    (keys.map fun r => ((rows.filter fun b => decide (keyOf b = some r)).map f).sum).sum
      = (rows.map f).sum := by
  induction rows with
  | nil => simp [sum_map_zero]
  | cons b rows ih =>
    rcases hcov b (List.mem_cons_self b rows) with ⟨rb, hrb, hkb⟩
    have hstep : ∀ r ∈ keys,
        ((List.filter (fun x => decide (keyOf x = some r)) (b :: rows)).map f).sum
          = (if r = rb then f b else 0)
            + ((rows.filter fun x => decide (keyOf x = some r)).map f).sum := by
      intro r _
      by_cases hr : r = rb
      · subst hr
        rw [List.filter_cons_of_pos (by simp [hkb]), if_pos rfl]
        simp
      · rw [List.filter_cons_of_neg (by simp [hkb]; intro he; exact hr he.symm), if_neg hr,
          zero_add]
    rw [List.map_congr_left hstep, sum_map_add, sum_ite_mem (f b) hnd hrb]
    rw [ih (fun x hx => hcov x (List.mem_cons_of_mem b hx))]
    simp

theorem round2_abs_sub (q : ℚ) : |round2 q - q| ≤ 1 / 200 := by
  have h := abs_sub_round (q * 100)
  have heq : round2 q - q = ((round (q * 100) : ℤ) - q * 100) / 100 := by
    unfold round2
    ring
  have h2 : |((round (q * 100) : ℤ) : ℚ) - q * 100| ≤ 1 / 2 := by
    rw [abs_sub_comm]
    exact h
  rw [heq, abs_div]
  have h100 : |(100 : ℚ)| = 100 := by norm_num
  rw [h100]
  linarith

theorem abs_sum_map_round2_sub (l : List ℚ) :
    |(l.map round2).sum - l.sum| ≤ l.length * (1 / 200) := by
  induction l with
  | nil => simp
  | cons x xs ih =>
    simp only [List.map_cons, List.sum_cons, List.length_cons]
    have : round2 x + (xs.map round2).sum - (x + xs.sum)
        = (round2 x - x) + ((xs.map round2).sum - xs.sum) := by ring
    rw [this]
    calc |(round2 x - x) + ((xs.map round2).sum - xs.sum)|
        ≤ |round2 x - x| + |(xs.map round2).sum - xs.sum| := abs_add _ _
      _ ≤ 1 / 200 + xs.length * (1 / 200) := add_le_add (round2_abs_sub x) ih
      _ = ((xs.length + 1 : ℕ) : ℚ) * (1 / 200) := by push_cast; ring

theorem sum_indicator_eq_count {α : Type} (p : α → Bool) (l : List α) :
    (l.map fun a => if p a then (1 : ℚ) else 0).sum = ((l.filter p).length : ℚ) := by
  induction l with
  | nil => simp
  | cons x xs ih =>
    by_cases hx : p x = true
    · rw [List.filter_cons_of_pos hx]
      simp [hx, ih]
      ring
    · have hfx : p x = false := by simp at hx; exact hx
      rw [List.filter_cons_of_neg (by simp [hfx])]
      simp [hfx, ih]

/- Membership shape of the three inner joins. -/

theorem mem_sales_with_customer {ss : List Sale} {cs : List Customer} {sc : Sale × Customer}
    (h : sc ∈ sales_with_customer ss cs) :
    sc.1 ∈ ss ∧ sc.2 ∈ cs ∧ sc.2.id = sc.1.customer_id := by
  rcases List.mem_flatMap.mp h with ⟨s, hs, hmem⟩
  rcases List.mem_map.mp hmem with ⟨c, hc, hrp⟩
  rcases List.mem_filter.mp hc with ⟨hcs, hid⟩
  cases hrp
  exact ⟨hs, hcs, by simpa using hid⟩

theorem mem_sales_with_product {ss : List Sale} {ps : List Product} {sp : Sale × Product}
    (h : sp ∈ sales_with_product ss ps) :
    sp.1 ∈ ss ∧ sp.2 ∈ ps ∧ sp.2.id = sp.1.product_id := by
  rcases List.mem_flatMap.mp h with ⟨s, hs, hmem⟩
  rcases List.mem_map.mp hmem with ⟨p, hp, hrp⟩
  rcases List.mem_filter.mp hp with ⟨hps, hid⟩
  cases hrp
  exact ⟨hs, hps, by simpa using hid⟩

theorem mem_inventory_with_product {inv : List InventoryRecord} {ps : List Product}
    {rp : InventoryRecord × Product} (h : rp ∈ inventory_with_product inv ps) :
    rp.1 ∈ inv ∧ rp.2 ∈ ps ∧ rp.2.id = rp.1.product_id := by
  rcases List.mem_flatMap.mp h with ⟨r, hr, hmem⟩
  rcases List.mem_map.mp hmem with ⟨p, hp, hrp⟩
  rcases List.mem_filter.mp hp with ⟨hps, hid⟩
  cases hrp
  exact ⟨hr, hps, by simpa using hid⟩

/-- Every sale surviving clean_sales passed the foreign-key validation, and the
later quantity fill and the quantity and total_amount filters preserve the
customer_id and product_id columns. -/
theorem clean_sales_mem {vc vp : List Int} {ss : List Sale} {s : Sale}
    (hs : s ∈ clean_sales vc vp ss) : s.customer_id ∈ vc ∧ s.product_id ∈ vp := by
  simp only [clean_sales] at hs
  rcases List.mem_filter.mp hs with ⟨hs2, _⟩
  rcases List.mem_filter.mp hs2 with ⟨hs3, _⟩
  rcases List.mem_map.mp hs3 with ⟨a, ha, hfa⟩
  rcases List.mem_filter.mp ha with ⟨_, hvalid⟩
  have hv : a.customer_id ∈ vc ∧ a.product_id ∈ vp := by
    simp only [Bool.and_eq_true, decide_eq_true_eq] at hvalid
    exact hvalid
  cases hfa
  exact hv

/-- C1: every row of the cleaned sales table has a customer_id equal to the id
of some cleaned customer row and a product_id equal to the id of some cleaned
product row, and this referential closure still holds after the quantity fill
and the quantity and total_amount filters that follow the validation step. -/
theorem C1_referential_closure (today : Int) (t : Tables) (s : Sale)
    (hs : s ∈ (clean_data today t).sales) :
    (∃ c ∈ (clean_data today t).customers, c.id = s.customer_id) ∧
    (∃ p ∈ (clean_data today t).products, p.id = s.product_id) := by
  have h : s.customer_id ∈ (clean_customers t.customers).map (fun c => c.id) ∧
      s.product_id ∈ (clean_products t.products).map (fun p => p.id) :=
    clean_sales_mem hs
  constructor
  · rcases List.mem_map.mp h.1 with ⟨c, hc, hcid⟩
    exact ⟨c, hc, hcid⟩
  · rcases List.mem_map.mp h.2 with ⟨p, hp, hpid⟩
    exact ⟨p, hp, hpid⟩

/-- Witness for C1 at a concrete input whose only sale survives cleaning. -/
theorem C1_witness :
    wSale ∈ (clean_data 0 wTables).sales ∧
    ((∃ c ∈ (clean_data 0 wTables).customers, c.id = wSale.customer_id) ∧
     (∃ p ∈ (clean_data 0 wTables).products, p.id = wSale.product_id)) := by
  have hmem : wSale ∈ (clean_data 0 wTables).sales := by
    norm_num [clean_data, clean_customers, clean_products, clean_sales, clean_inventory,
      distinctBy, dropDupAux, medianQ, sortBy, insertSorted, synthInventory, fixInventoryRow,
      wTables, wCust, wProd, wSale]
  exact ⟨hmem, C1_referential_closure 0 wTables wSale hmem⟩

/-- C9: when any of the four table attributes is still uninitialized, both
clean_data and generate_metrics abort with the precondition error, producing
no partial output (the state is returned unmodified inside the error). -/
theorem C9_precondition_error (today : Int) (st : PipelineState)
    (h : st.customers_df = none ∨ st.products_df = none ∨ st.sales_df = none ∨
      st.inventory_df = none) :
    (∃ e, clean_data_checked today st = Except.error e) ∧
    (∃ e, generate_metrics_checked today st = Except.error e) := by
  obtain ⟨c, p, s, i⟩ := st
  cases c <;> cases p <;> cases s <;> cases i <;>
    first
    | exact ⟨⟨_, rfl⟩, ⟨_, rfl⟩⟩
    | simp at h

/-- Witness for C9 on the freshly constructed pipeline state. -/
theorem C9_witness :
    ((PipelineState.mk none none none none).customers_df = none ∨
     (PipelineState.mk none none none none).products_df = none ∨
     (PipelineState.mk none none none none).sales_df = none ∨
     (PipelineState.mk none none none none).inventory_df = none) ∧
    ((∃ e, clean_data_checked 0 (PipelineState.mk none none none none) = Except.error e) ∧
     (∃ e, generate_metrics_checked 0 (PipelineState.mk none none none none) = Except.error e)) :=
  ⟨Or.inl rfl, C9_precondition_error 0 (PipelineState.mk none none none none) (Or.inl rfl)⟩

/-- C10: cleaning never drops inventory rows - the cleaned inventory starts
with every input row, clamped to non-negative stock and with a present
turnover rate - and rows whose product_id references no cleaned product are
excluded from the at-risk list and the per-category turnover aggregates by
the inner join with the cleaned products. -/
theorem C10_inventory_preserved (today : Int) (t : Tables) :
    (∃ extra, (clean_data today t).inventory =
        t.inventory.map fixInventoryRow ++ extra) ∧
    (∀ r ∈ (clean_data today t).inventory,
        0 ≤ r.current_stock ∧ (r.turnover_rate).isSome = true) ∧
    (∀ x ∈ low_stock_products (clean_data today t).inventory (clean_data today t).products,
        ∃ p ∈ (clean_data today t).products, p.id = x.product_id) ∧
    (∀ e ∈ turnover_by_category (clean_data today t).inventory (clean_data today t).products,
        ∃ p ∈ (clean_data today t).products, p.category = some e.1) := by
  refine ⟨?_, ?_, ?_, ?_⟩
  · refine ⟨(((((clean_products t.products).map fun p => p.id).filter fun p =>
        !(decide (p ∈ t.inventory.map fun r => r.product_id))).map
        (synthInventory today)).map fixInventoryRow), ?_⟩
    simp [clean_data, clean_inventory, List.map_append]
  · intro r hr
    simp only [clean_data, clean_inventory] at hr
    rcases List.mem_map.mp hr with ⟨a, _, rfl⟩
    exact ⟨le_max_right _ _, rfl⟩
  · intro x hx
    simp only [low_stock_products] at hx
    rcases List.mem_map.mp hx with ⟨rp, hrp, rfl⟩
    rcases List.mem_filter.mp hrp with ⟨hjoin, _⟩
    rcases mem_inventory_with_product hjoin with ⟨_, hp, hid⟩
    exact ⟨rp.2, hp, hid⟩
  · intro e he
    simp only [turnover_by_category] at he
    rcases List.mem_map.mp he with ⟨c, hc, rfl⟩
    have hc2 : c ∈ distinctBy id (((inventory_with_product (clean_data today t).inventory
        (clean_data today t).products)).filterMap fun rp => rp.2.category) :=
      (sortBy_perm _ _).mem_iff.mp hc
    rcases List.mem_filterMap.mp (distinctBy_subset hc2) with ⟨rp, hrow, hcat⟩
    rcases mem_inventory_with_product hrow with ⟨_, hp, _⟩
    exact ⟨rp.2, hp, hcat⟩

/-- Witness for C10: the orphan inventory row with negative stock and missing
turnover rate survives cleaning in repaired form. -/
theorem C10_witness :
    ∃ extra, (clean_data 0 wTablesInv).inventory =
      wTablesInv.inventory.map fixInventoryRow ++ extra :=
  (C10_inventory_preserved 0 wTablesInv).1

/-- Membership in an optionally-emitted singleton insight list. -/
theorem mem_ite_singleton {P : Prop} [Decidable P] {a i : Insight} :
    (i ∈ if P then [a] else []) ↔ (i = a ∧ P) := by
  split_ifs with h
  · simp [h]
  · simp [h]

/-- Membership in the churn rule output. -/
theorem mem_churn_component {custRows : List CustomerRow} {i : Insight} :
    (i ∈ match churn_rate_of custRows with
          | some r => if decide ((3/10 : ℚ) < r) then [insChurn] else []
          | none => []) ↔
      (i = insChurn ∧ ∃ cr, churn_rate_of custRows = some cr ∧ 3/10 < cr) := by
  cases hcr : churn_rate_of custRows with
  | none => simp
  | some r =>
    rw [mem_ite_singleton]
    simp [decide_eq_true_eq]

/-- Characterization of the insights emitted on non-empty region and category
aggregates: each rule's insight is present exactly when its gate condition
holds, and nothing else is emitted. -/
theorem gbi_ok_mem (rbr : List (String × RegionRevenue))
    (catPerf : List (String × CategoryPerf))
    (ageAnalysis : List (String × AgeGroupStats))
    (custRows : List CustomerRow) (lowStock : List LowStockRow)
    (hr : rbr ≠ []) (hc : catPerf ≠ []) :
    ∃ l, generate_business_insights rbr catPerf ageAnalysis custRows lowStock
        = Except.ok l ∧
      ∀ i : Insight, i ∈ l ↔
        ((i = insRegional ∧
            meanQ (rbr.map fun e => e.2.total_revenue) * (6/5) <
              listMaxQ (rbr.map fun e => e.2.total_revenue)) ∨
         i = insCategory ∨
         (i = insAge ∧ ageAnalysis ≠ []) ∨
         (i = insInventory ∧ lowStock ≠ []) ∨
         (i = insChurn ∧ ∃ cr, churn_rate_of custRows = some cr ∧ 3/10 < cr)) := by
  have hre : rbr.isEmpty = false := by
    cases rbr
    · exact absurd rfl hr
    · rfl
  have hce : catPerf.isEmpty = false := by
    cases catPerf
    · exact absurd rfl hc
    · rfl
  unfold generate_business_insights
  rw [if_neg (by simp [hre]), if_neg (by simp [hce])]
  refine ⟨_, rfl, ?_⟩
  intro i
  cases hcr2 : churn_rate_of custRows <;>
    split_ifs <;>
    simp_all [List.mem_append, List.isEmpty_iff, ← not_le] <;>
    tauto

/-- C3 counterexample: on the metrics bundle of a run with no cleaned sales,
whose region and category aggregates are empty, generate_business_insights
does not return normally: the unguarded idxmax on the empty
revenue_by_region frame raises. -/
theorem C3_counterexample :
    generate_business_insights [] [] [] [] [] =
      Except.error "attempt to get argmax of an empty sequence" := rfl

/-- C3 (amended): when the region and category aggregates are non-empty,
generate_business_insights returns normally, always emits the Category
Dominance insight, and omits each other rule's insight when that rule's gate
fails; with an empty region or category aggregate it raises instead. -/
theorem C3_insights_on_nonempty_aggregates
    (rbr : List (String × RegionRevenue)) (catPerf : List (String × CategoryPerf))
    (ageAnalysis : List (String × AgeGroupStats)) (custRows : List CustomerRow)
    (lowStock : List LowStockRow)
    (hr : rbr ≠ []) (hc : catPerf ≠ []) :
    ∃ l, generate_business_insights rbr catPerf ageAnalysis custRows lowStock
        = Except.ok l ∧
      insCategory ∈ l ∧
      (¬ (meanQ (rbr.map fun e => e.2.total_revenue) * (6/5) <
            listMaxQ (rbr.map fun e => e.2.total_revenue)) → insRegional ∉ l) ∧
      (ageAnalysis = [] → insAge ∉ l) ∧
      (lowStock = [] → insInventory ∉ l) ∧
      (∀ cr, churn_rate_of custRows = some cr → ¬ (3/10 < cr) → insChurn ∉ l) := by
  obtain ⟨l, hok, hmem⟩ := gbi_ok_mem rbr catPerf ageAnalysis custRows lowStock hr hc
  refine ⟨l, hok, ?_, ?_, ?_, ?_, ?_⟩
  · exact (hmem insCategory).mpr (Or.inr (Or.inl rfl))
  · intro hg hmem2
    rcases (hmem insRegional).mp hmem2 with ⟨_, hlt⟩ | h | ⟨h, _⟩ | ⟨h, _⟩ | ⟨h, _⟩
    · exact hg hlt
    · exact absurd h (by decide)
    · exact absurd h (by decide)
    · exact absurd h (by decide)
    · exact absurd h (by decide)
  · intro hnil hmem2
    rcases (hmem insAge).mp hmem2 with ⟨h, _⟩ | h | ⟨_, hne⟩ | ⟨h, _⟩ | ⟨h, _⟩
    · exact absurd h (by decide)
    · exact absurd h (by decide)
    · exact hne hnil
    · exact absurd h (by decide)
    · exact absurd h (by decide)
  · intro hnil hmem2
    rcases (hmem insInventory).mp hmem2 with ⟨h, _⟩ | h | ⟨h, _⟩ | ⟨_, hne⟩ | ⟨h, _⟩
    · exact absurd h (by decide)
    · exact absurd h (by decide)
    · exact absurd h (by decide)
    · exact hne hnil
    · exact absurd h (by decide)
  · intro cr hcr hng hmem2
    rcases (hmem insChurn).mp hmem2 with ⟨h, _⟩ | h | ⟨h, _⟩ | ⟨h, _⟩ | ⟨_, cr0, hcr0, hgt⟩
    · exact absurd h (by decide)
    · exact absurd h (by decide)
    · exact absurd h (by decide)
    · exact absurd h (by decide)
    · rw [hcr] at hcr0
      have : cr = cr0 := by
        injection hcr0
      exact hng (this ▸ hgt)

/-- Witness for C3 (amended) at concrete non-empty aggregates with every
other gate failing: only the Category Dominance insight is forced. -/
theorem C3_witness :
    (wRR ≠ [] ∧ wCP ≠ []) ∧
    (∃ l, generate_business_insights wRR wCP [] [] [] = Except.ok l ∧
      insCategory ∈ l ∧
      (¬ (meanQ (wRR.map fun e => e.2.total_revenue) * (6/5) <
            listMaxQ (wRR.map fun e => e.2.total_revenue)) → insRegional ∉ l) ∧
      (([] : List (String × AgeGroupStats)) = [] → insAge ∉ l) ∧
      (([] : List LowStockRow) = [] → insInventory ∉ l) ∧
      (∀ cr, churn_rate_of [] = some cr → ¬ (3/10 < cr) → insChurn ∉ l)) :=
  ⟨⟨by simp [wRR], by simp [wCP]⟩,
    C3_insights_on_nonempty_aggregates wRR wCP [] [] []
      (by simp [wRR]) (by simp [wCP])⟩

/-- C7: on non-empty region and category aggregates, and with a defined
overall churn rate, the Customer Retention Concern insight is emitted exactly
when the churn rate is strictly above 30 percent; at exactly 30 percent it is
omitted. -/
theorem C7_retention_insight_iff
    (rbr : List (String × RegionRevenue)) (catPerf : List (String × CategoryPerf))
    (ageAnalysis : List (String × AgeGroupStats)) (custRows : List CustomerRow)
    (lowStock : List LowStockRow)
    (hr : rbr ≠ []) (hc : catPerf ≠ []) (cr : ℚ)
    (hcr : churn_rate_of custRows = some cr) :
    ∃ l, generate_business_insights rbr catPerf ageAnalysis custRows lowStock
        = Except.ok l ∧
      (insChurn ∈ l ↔ 3/10 < cr) := by
  obtain ⟨l, hok, hmem⟩ := gbi_ok_mem rbr catPerf ageAnalysis custRows lowStock hr hc
  refine ⟨l, hok, ?_, ?_⟩
  · intro h
    rcases (hmem insChurn).mp h with ⟨h2, _⟩ | h2 | ⟨h2, _⟩ | ⟨h2, _⟩ | ⟨_, cr0, hcr0, hgt⟩
    · exact absurd h2 (by decide)
    · exact absurd h2 (by decide)
    · exact absurd h2 (by decide)
    · exact absurd h2 (by decide)
    · rw [hcr] at hcr0
      have : cr = cr0 := by
        injection hcr0
      exact this ▸ hgt
  · intro hgt
    exact (hmem insChurn).mpr (Or.inr (Or.inr (Or.inr (Or.inr ⟨rfl, cr, hcr, hgt⟩))))

/-- Witness for C7 at a churn rate of exactly 3/10: the insight is absent. -/
theorem C7_witness :
    (wRR ≠ [] ∧ wCP ≠ [] ∧ churn_rate_of wChurnRows = some (3/10)) ∧
    (∃ l, generate_business_insights wRR wCP [] wChurnRows [] = Except.ok l ∧
      (insChurn ∈ l ↔ (3/10 : ℚ) < 3/10)) := by
  have h3 : churn_rate_of wChurnRows = some (3/10) := by
    norm_num [churn_rate_of, meanQ, wChurnRows, wRowChurned, wRowActive]
  exact ⟨⟨by simp [wRR], by simp [wCP], h3⟩,
    C7_retention_insight_iff wRR wCP [] wChurnRows []
      (by simp [wRR]) (by simp [wCP]) (3/10) h3⟩

/-- C8: on non-empty region and category aggregates the Regional Performance
Leader insight is emitted exactly when the top region revenue is strictly
above 1.2 times the mean region revenue; with all regions equal (top equals
mean) it is omitted. -/
theorem C8_regional_insight_iff
    (rbr : List (String × RegionRevenue)) (catPerf : List (String × CategoryPerf))
    (ageAnalysis : List (String × AgeGroupStats)) (custRows : List CustomerRow)
    (lowStock : List LowStockRow)
    (hr : rbr ≠ []) (hc : catPerf ≠ []) :
    ∃ l, generate_business_insights rbr catPerf ageAnalysis custRows lowStock
        = Except.ok l ∧
      (insRegional ∈ l ↔
        meanQ (rbr.map fun e => e.2.total_revenue) * (6/5) <
          listMaxQ (rbr.map fun e => e.2.total_revenue)) := by
  obtain ⟨l, hok, hmem⟩ := gbi_ok_mem rbr catPerf ageAnalysis custRows lowStock hr hc
  refine ⟨l, hok, ?_, ?_⟩
  · intro h
    rcases (hmem insRegional).mp h with ⟨_, hlt⟩ | h2 | ⟨h2, _⟩ | ⟨h2, _⟩ | ⟨h2, _⟩
    · exact hlt
    · exact absurd h2 (by decide)
    · exact absurd h2 (by decide)
    · exact absurd h2 (by decide)
    · exact absurd h2 (by decide)
  · intro hlt
    exact (hmem insRegional).mpr (Or.inl ⟨rfl, hlt⟩)

/-- Witness for C8 at two regions with equal revenues: top equals mean, the
gate fails, and the insight is absent. -/
theorem C8_witness :
    (wRR2 ≠ [] ∧ wCP ≠ []) ∧
    (∃ l, generate_business_insights wRR2 wCP [] [] [] = Except.ok l ∧
      (insRegional ∈ l ↔
        meanQ (wRR2.map fun e => e.2.total_revenue) * (6/5) <
          listMaxQ (wRR2.map fun e => e.2.total_revenue))) :=
  ⟨⟨by simp [wRR2], by simp [wCP]⟩,
    C8_regional_insight_iff wRR2 wCP [] [] [] (by simp [wRR2]) (by simp [wCP])⟩

/- Idempotence of the cleaning stage (claim C5). -/

theorem map_eq_self_of_eq_id {α : Type} {f : α → α} {l : List α}
    (h : ∀ a ∈ l, f a = a) : l.map f = l := by
  induction l with
  | nil => rfl
  | cons x xs ih =>
    rw [List.map_cons, h x (List.mem_cons_self x xs),
      ih (fun a ha => h a (List.mem_cons_of_mem x ha))]

theorem clean_customers_pairwise (cs : List Customer) :
    (clean_customers cs).Pairwise (fun a b => a.id ≠ b.id) := by
  simp only [clean_customers]
  apply List.Pairwise.sublist (List.filter_sublist _)
  rw [List.pairwise_map]
  exact pairwise_distinctBy

theorem clean_customers_shape (cs : List Customer) :
    ∀ c ∈ clean_customers cs, (c.name).isSome = true ∧ (c.region).isSome = true ∧
      ∃ a, c.age = some a ∧ 18 ≤ a ∧ a ≤ 100 := by
  intro c hc
  simp only [clean_customers] at hc
  rcases List.mem_filter.mp hc with ⟨hmem, hpred⟩
  rcases List.mem_map.mp hmem with ⟨b, _, hfb⟩
  refine ⟨?_, ?_, ?_⟩
  · rw [← hfb]; rfl
  · rw [← hfb]; rfl
  · cases hca : c.age with
    | none => rw [hca] at hpred; simp at hpred
    | some a =>
      rw [hca] at hpred
      simp only [decide_eq_true_eq] at hpred
      exact ⟨a, rfl, hpred.1, hpred.2⟩

theorem customer_fill_eq_self (m : Option ℚ) (c : Customer)
    (hn : (c.name).isSome = true) (ha : (c.age).isSome = true)
    (hr : (c.region).isSome = true) :
    { c with name := some (c.name.getD "Unknown Customer"),
             age := c.age <|> m,
             region := some (c.region.getD "Unknown") } = c := by
  obtain ⟨i, name, age, region, cr⟩ := c
  cases name with
  | none => simp at hn
  | some n =>
    cases age with
    | none => simp at ha
    | some a =>
      cases region with
      | none => simp at hr
      | some r => simp [Option.orElse]

theorem clean_customers_fixpoint (l : List Customer)
    (hpw : l.Pairwise (fun a b => a.id ≠ b.id))
    (hshape : ∀ c ∈ l, (c.name).isSome = true ∧ (c.region).isSome = true ∧
      ∃ a, c.age = some a ∧ 18 ≤ a ∧ a ≤ 100) :
    clean_customers l = l := by
  simp only [clean_customers]
  rw [distinctBy_eq_self hpw]
  rw [map_eq_self_of_eq_id ?hfill]
  case hfill =>
    intro c hc
    rcases hshape c hc with ⟨hn, hr2, a, hca, _, _⟩
    exact customer_fill_eq_self _ c hn (by rw [hca]; rfl) hr2
  rw [List.filter_eq_self.mpr ?hpred]
  case hpred =>
    intro c hc
    rcases hshape c hc with ⟨_, _, a, hca, h1, h2⟩
    rw [hca]
    simp [h1, h2]

theorem clean_customers_idem (cs : List Customer) :
    clean_customers (clean_customers cs) = clean_customers cs :=
  clean_customers_fixpoint _ (clean_customers_pairwise cs) (clean_customers_shape cs)

theorem clean_products_pairwise (ps : List Product) :
    (clean_products ps).Pairwise (fun a b => a.id ≠ b.id) := by
  simp only [clean_products]
  apply List.Pairwise.sublist (List.filter_sublist _)
  rw [List.pairwise_map]
  exact pairwise_distinctBy

theorem clean_products_shape (ps : List Product) :
    ∀ p ∈ clean_products ps, (p.name).isSome = true ∧ (p.category).isSome = true ∧
      (p.supplier).isSome = true ∧ 0 < p.price ∧ p.price ≤ 10000 := by
  intro p hp
  simp only [clean_products] at hp
  rcases List.mem_filter.mp hp with ⟨hmem, hpred⟩
  rcases List.mem_map.mp hmem with ⟨b, _, hfb⟩
  simp only [decide_eq_true_eq] at hpred
  refine ⟨?_, ?_, ?_, hpred.1, hpred.2⟩
  · rw [← hfb]; rfl
  · rw [← hfb]; rfl
  · rw [← hfb]; rfl

theorem product_fill_eq_self (p : Product)
    (hn : (p.name).isSome = true) (hc : (p.category).isSome = true)
    (hs : (p.supplier).isSome = true) :
    { p with name := some (p.name.getD "Unknown Product"),
             category := some (p.category.getD "Other"),
             supplier := some (p.supplier.getD "Unknown Supplier") } = p := by
  obtain ⟨i, name, category, price, supplier, cr⟩ := p
  cases name with
  | none => simp at hn
  | some n =>
    cases category with
    | none => simp at hc
    | some c =>
      cases supplier with
      | none => simp at hs
      | some s => simp

theorem clean_products_fixpoint (l : List Product)
    (hpw : l.Pairwise (fun a b => a.id ≠ b.id))
    (hshape : ∀ p ∈ l, (p.name).isSome = true ∧ (p.category).isSome = true ∧
      (p.supplier).isSome = true ∧ 0 < p.price ∧ p.price ≤ 10000) :
    clean_products l = l := by
  simp only [clean_products]
  rw [distinctBy_eq_self hpw]
  rw [map_eq_self_of_eq_id ?hfill]
  case hfill =>
    intro p hp
    rcases hshape p hp with ⟨hn, hc, hs, _, _⟩
    exact product_fill_eq_self p hn hc hs
  rw [List.filter_eq_self.mpr ?hpred]
  case hpred =>
    intro p hp
    rcases hshape p hp with ⟨_, _, _, h1, h2⟩
    simp [h1, h2]

theorem clean_products_idem (ps : List Product) :
    clean_products (clean_products ps) = clean_products ps :=
  clean_products_fixpoint _ (clean_products_pairwise ps) (clean_products_shape ps)

theorem clean_sales_pairwise (vc vp : List Int) (ss : List Sale) :
    (clean_sales vc vp ss).Pairwise (fun a b => a.id ≠ b.id) := by
  simp only [clean_sales]
  apply List.Pairwise.sublist (List.filter_sublist _)
  apply List.Pairwise.sublist (List.filter_sublist _)
  rw [List.pairwise_map]
  apply List.Pairwise.sublist (List.filter_sublist _)
  exact pairwise_distinctBy

theorem clean_sales_shape (vc vp : List Int) (ss : List Sale) :
    ∀ s ∈ clean_sales vc vp ss, s.customer_id ∈ vc ∧ s.product_id ∈ vp ∧
      (∃ q, s.quantity = some q ∧ 0 < q) ∧ 0 < s.total_amount := by
  intro s hs
  have hv := clean_sales_mem hs
  simp only [clean_sales] at hs
  rcases List.mem_filter.mp hs with ⟨hs2, hamt⟩
  rcases List.mem_filter.mp hs2 with ⟨_, hqty⟩
  refine ⟨hv.1, hv.2, ?_, by simpa using hamt⟩
  cases hq : s.quantity with
  | none => rw [hq] at hqty; simp at hqty
  | some q =>
    rw [hq] at hqty
    simp only [decide_eq_true_eq] at hqty
    exact ⟨q, rfl, hqty⟩

theorem sale_fill_eq_self (s : Sale) (hq : (s.quantity).isSome = true) :
    { s with quantity := some (s.quantity.getD 1) } = s := by
  obtain ⟨i, c, p, d, quantity, u, t⟩ := s
  cases quantity with
  | none => simp at hq
  | some q => simp

theorem clean_sales_fixpoint (vc vp : List Int) (l : List Sale)
    (hpw : l.Pairwise (fun a b => a.id ≠ b.id))
    (hshape : ∀ s ∈ l, s.customer_id ∈ vc ∧ s.product_id ∈ vp ∧
      (∃ q, s.quantity = some q ∧ 0 < q) ∧ 0 < s.total_amount) :
    clean_sales vc vp l = l := by
  have e1 : distinctBy (fun s : Sale => s.id) l = l := distinctBy_eq_self hpw
  have e2 : List.filter
      (fun s : Sale => decide (s.customer_id ∈ vc) && decide (s.product_id ∈ vp)) l = l := by
    rw [List.filter_eq_self]
    intro s hs
    rcases hshape s hs with ⟨h1, h2, _, _⟩
    simp [h1, h2]
  have e3 : l.map (fun s : Sale => { s with quantity := some (s.quantity.getD 1) }) = l := by
    apply map_eq_self_of_eq_id
    intro s hs
    rcases hshape s hs with ⟨_, _, ⟨q, hq, _⟩, _⟩
    exact sale_fill_eq_self s (by rw [hq]; rfl)
  have e4 : List.filter
      (fun s : Sale =>
        match s.quantity with
        | some q => decide (0 < q)
        | none => false) l = l := by
    rw [List.filter_eq_self]
    intro s hs
    rcases hshape s hs with ⟨_, _, ⟨q, hq, hqpos⟩, _⟩
    rw [hq]
    simp [hqpos]
  have e5 : List.filter (fun s : Sale => decide (0 < s.total_amount)) l = l := by
    rw [List.filter_eq_self]
    intro s hs
    rcases hshape s hs with ⟨_, _, _, hpos⟩
    simp [hpos]
  simp only [clean_sales, e1, e2, e3, e4, e5]

theorem clean_sales_idem (vc vp : List Int) (ss : List Sale) :
    clean_sales vc vp (clean_sales vc vp ss) = clean_sales vc vp ss :=
  clean_sales_fixpoint vc vp _ (clean_sales_pairwise vc vp ss) (clean_sales_shape vc vp ss)

theorem clean_inventory_covers (today : Int) (pids : List Int) (inv : List InventoryRecord) :
    ∀ p ∈ pids, p ∈ (clean_inventory today pids inv).map (fun r => r.product_id) := by
  intro p hp
  simp only [clean_inventory]
  by_cases hmem : p ∈ inv.map (fun r => r.product_id)
  · rcases List.mem_map.mp hmem with ⟨r, hr, hrp⟩
    refine List.mem_map.mpr ⟨fixInventoryRow r, List.mem_map.mpr
      ⟨r, List.mem_append_left _ hr, rfl⟩, ?_⟩
    simpa [fixInventoryRow] using hrp
  · have hmiss : p ∈ pids.filter (fun q =>
        !(decide (q ∈ inv.map (fun r => r.product_id)))) :=
      List.mem_filter.mpr ⟨hp, by simp [hmem]⟩
    refine List.mem_map.mpr ⟨fixInventoryRow (synthInventory today p), List.mem_map.mpr
      ⟨synthInventory today p, List.mem_append_right _ (List.mem_map.mpr ⟨p, hmiss, rfl⟩), rfl⟩, ?_⟩
    simp [fixInventoryRow, synthInventory]

theorem clean_inventory_mem_fixed (today : Int) (pids : List Int)
    (inv : List InventoryRecord) :
    ∀ r ∈ clean_inventory today pids inv, fixInventoryRow r = r := by
  intro r hr
  simp only [clean_inventory] at hr
  rcases List.mem_map.mp hr with ⟨a, _, rfl⟩
  simp [fixInventoryRow, max_eq_left (le_max_right _ _)]

theorem clean_inventory_fixpoint (today : Int) (pids : List Int) (l : List InventoryRecord)
    (hcov : ∀ p ∈ pids, p ∈ l.map (fun r => r.product_id))
    (hfix : ∀ r ∈ l, fixInventoryRow r = r) :
    clean_inventory today pids l = l := by
  simp only [clean_inventory]
  have hmiss : pids.filter (fun p => !(decide (p ∈ l.map (fun r => r.product_id)))) = [] := by
    rw [List.filter_eq_nil_iff]
    intro p hp
    simp [hcov p hp]
  rw [hmiss]
  simp only [List.map_nil, List.append_nil]
  exact map_eq_self_of_eq_id hfix

theorem clean_inventory_idem (today : Int) (pids : List Int) (inv : List InventoryRecord) :
    clean_inventory today pids (clean_inventory today pids inv)
      = clean_inventory today pids inv :=
  clean_inventory_fixpoint today pids _
    (clean_inventory_covers today pids inv)
    (clean_inventory_mem_fixed today pids inv)

/-- C5: clean_data is idempotent - re-running the cleaning stage on the four
tables it produced changes nothing: no rows dropped, no values filled or
clamped to new values, and no further inventory records synthesized. -/
theorem C5_clean_idempotent (today : Int) (t : Tables) :
    clean_data today (clean_data today t) = clean_data today t := by
  show Tables.mk
      (clean_customers (clean_customers t.customers))
      (clean_products (clean_products t.products))
      (clean_sales ((clean_customers (clean_customers t.customers)).map (fun c => c.id))
        ((clean_products (clean_products t.products)).map (fun p => p.id))
        (clean_sales ((clean_customers t.customers).map (fun c => c.id))
          ((clean_products t.products).map (fun p => p.id)) t.sales))
      (clean_inventory today
        ((clean_products (clean_products t.products)).map (fun p => p.id))
        (clean_inventory today ((clean_products t.products).map (fun p => p.id)) t.inventory))
    = Tables.mk (clean_customers t.customers) (clean_products t.products)
      (clean_sales ((clean_customers t.customers).map (fun c => c.id))
        ((clean_products t.products).map (fun p => p.id)) t.sales)
      (clean_inventory today ((clean_products t.products).map (fun p => p.id)) t.inventory)
  rw [clean_customers_idem, clean_products_idem, clean_sales_idem, clean_inventory_idem]

/- Customer-metrics counting (claim C4). -/

theorem sum_eq_length_of_all_one {α : Type} {f : α → Nat} {l : List α}
    (h : ∀ a ∈ l, f a = 1) : (l.map f).sum = l.length := by
  induction l with
  | nil => rfl
  | cons x xs ih =>
    simp only [List.map_cons, List.sum_cons, List.length_cons,
      h x (List.mem_cons_self x xs),
      ih (fun a ha => h a (List.mem_cons_of_mem x ha))]
    omega

theorem customer_ids_sound {ss : List Sale} {cid : Int} (h : cid ∈ customer_ids ss) :
    ∃ s ∈ ss, s.customer_id = cid := by
  have h2 : cid ∈ distinctBy id (ss.map fun s => s.customer_id) :=
    (sortBy_perm _ _).mem_iff.mp h
  have h3 : cid ∈ ss.map fun s => s.customer_id := distinctBy_subset h2
  rcases List.mem_map.mp h3 with ⟨s, hs, hcid⟩
  exact ⟨s, hs, hcid⟩

theorem customer_ids_complete {ss : List Sale} {s : Sale} (h : s ∈ ss) :
    s.customer_id ∈ customer_ids ss :=
  (sortBy_perm _ _).mem_iff.mpr (mem_distinctBy_id (List.mem_map.mpr ⟨s, h, rfl⟩))

theorem customer_metrics_length (today : Int) (ss : List Sale) (cs : List Customer)
    (hpw : cs.Pairwise (fun a b => a.id ≠ b.id))
    (hclosure : ∀ s ∈ ss, ∃ c ∈ cs, c.id = s.customer_id) :
    (customer_metrics today ss cs).length = (customer_ids ss).length := by
  simp only [customer_metrics]
  rw [List.length_flatMap, sum_eq_length_of_all_one]
  intro cid hcid
  simp only [Function.comp_apply, List.length_map]
  rcases customer_ids_sound hcid with ⟨s, hs, hscid⟩
  rcases hclosure s hs with ⟨c, hc, hcid2⟩
  have hcongr : ∀ b ∈ cs, decide (b.id = cid) = decide (b.id = c.id) := by
    intro b _
    rw [hcid2, hscid]
  rw [List.filter_congr hcongr, filter_eq_singleton_of_key hpw hc]
  rfl

theorem customer_metrics_ne_nil (today : Int) {ss : List Sale} (cs : List Customer)
    (hclosure : ∀ s ∈ ss, ∃ c ∈ cs, c.id = s.customer_id)
    (hne : ss ≠ []) : customer_metrics today ss cs ≠ [] := by
  rcases List.exists_mem_of_ne_nil ss hne with ⟨s, hs⟩
  rcases hclosure s hs with ⟨c, hc, hcid⟩
  have hcid2 : s.customer_id ∈ customer_ids ss := customer_ids_complete hs
  apply List.ne_nil_of_mem
  apply List.mem_flatMap.mpr
  refine ⟨s.customer_id, hcid2, ?_⟩
  apply List.mem_map.mpr
  exact ⟨c, List.mem_filter.mpr ⟨hc, by simp [hcid]⟩, rfl⟩

theorem customer_metrics_is_churned (today : Int) (ss : List Sale) (cs : List Customer) :
    ∀ r ∈ customer_metrics today ss cs,
      r.is_churned = decide (90 < r.days_since_last_purchase) := by
  intro r hr
  rcases List.mem_flatMap.mp hr with ⟨cid, _, hmem⟩
  rcases List.mem_map.mp hmem with ⟨c, _, rfl⟩
  rfl

/-- C4 counterexample: with a second cleaned customer that has no sales, the
summary counts only the customers appearing in sales (1), not the cleaned
customers (2). -/
theorem C4_counterexample :
    (clean_data 0 c4Tables).customers.length = 2 ∧
    Except.map (fun m => m.customer_metrics_summary.total_customers)
        (generate_metrics 0 (clean_data 0 c4Tables)) = Except.ok 1 ∧
    Except.map (fun m => m.customer_metrics_summary.total_customers)
        (generate_metrics 0 (clean_data 0 c4Tables))
      ≠ Except.ok ((clean_data 0 c4Tables).customers.length) := by
  have h1 : (clean_data 0 c4Tables).customers.length = 2 := by
    norm_num [clean_data, clean_customers, clean_products, clean_sales, clean_inventory,
      distinctBy, dropDupAux, medianQ, sortBy, insertSorted, synthInventory, fixInventoryRow,
      c4Tables, wCust, wCust3, wProd, wSale]
  have h2 : Except.map (fun m => m.customer_metrics_summary.total_customers)
      (generate_metrics 0 (clean_data 0 c4Tables)) = Except.ok 1 := by
    norm_num [clean_data, clean_customers, clean_products, clean_sales, clean_inventory,
      distinctBy, dropDupAux, medianQ, sortBy, insertSorted, synthInventory, fixInventoryRow,
      c4Tables, wCust, wCust3, wProd, wSale,
      generate_metrics, generate_business_insights, revenue_by_region, sales_with_customer,
      region_keys, region_rows, meanQ, round2, round_eq, top_products, sales_with_product,
      product_key, product_keys, grouped_products, revDescLe, category_performance,
      customer_metrics, customer_ids, customer_metrics_summary, churn_rate_of,
      age_group_analysis, age_group_labels, age_group_of, listMaxQ, listMaxInt, listMinInt,
      inventory_with_product, low_stock_products, turnover_by_category, strLe, charListLe,
      prodKeyLe, Except.map]
  refine ⟨h1, h2, ?_⟩
  rw [h1, h2]
  intro hcontra
  have : (1 : Nat) = 2 := by
    injection hcontra
  exact absurd this (by decide)

/-- C4 (amended): total_customers in the summary equals the number of distinct
customer ids appearing in the cleaned sales (customers with no sales are not
counted), and churn_rate equals the number of those sale-having customers
whose days_since_last_purchase exceeds 90 divided by their total count. -/
theorem C4_churn_and_totals (today : Int) (ss : List Sale) (cs : List Customer)
    (hpw : cs.Pairwise (fun a b => a.id ≠ b.id))
    (hclosure : ∀ s ∈ ss, ∃ c ∈ cs, c.id = s.customer_id)
    (hne : ss ≠ []) :
    (customer_metrics_summary (customer_metrics today ss cs)).total_customers
        = (distinctBy id (ss.map fun s => s.customer_id)).length ∧
    (customer_metrics_summary (customer_metrics today ss cs)).churn_rate
        = some ((((customer_metrics today ss cs).filter fun r => r.is_churned).length : ℚ)
            / ((customer_metrics today ss cs).length : ℚ)) ∧
    ∀ r ∈ customer_metrics today ss cs,
      r.is_churned = decide (90 < r.days_since_last_purchase) := by
  have hnil := customer_metrics_ne_nil today cs hclosure hne
  have hempty : (customer_metrics today ss cs).isEmpty = false := by
    cases hrows : customer_metrics today ss cs with
    | nil => exact absurd hrows hnil
    | cons a l => rfl
  refine ⟨?_, ?_, customer_metrics_is_churned today ss cs⟩
  · show (customer_metrics today ss cs).length = _
    rw [customer_metrics_length today ss cs hpw hclosure]
    exact (sortBy_perm _ _).length_eq
  · show churn_rate_of (customer_metrics today ss cs) = _
    rw [churn_rate_of, if_neg (by simp [hempty])]
    congr 1
    rw [meanQ, sum_indicator_eq_count, List.length_map]

/-- Witness for C4 (amended) at the one-sale input. -/
theorem C4_witness :
    ([wCust].Pairwise (fun a b => a.id ≠ b.id) ∧
     (∀ s ∈ [wSale], ∃ c ∈ [wCust], c.id = s.customer_id) ∧
     ([wSale] : List Sale) ≠ []) ∧
    (customer_metrics_summary (customer_metrics 0 [wSale] [wCust])).total_customers
        = (distinctBy id (([wSale] : List Sale).map fun s => s.customer_id)).length := by
  have hpw : [wCust].Pairwise (fun a b => a.id ≠ b.id) := by simp
  have hclosure : ∀ s ∈ [wSale], ∃ c ∈ [wCust], c.id = s.customer_id := by
    intro s hs
    simp only [List.mem_singleton] at hs
    exact ⟨wCust, List.mem_singleton.mpr rfl, by rw [hs]; rfl⟩
  have hne : ([wSale] : List Sale) ≠ [] := by simp
  exact ⟨⟨hpw, hclosure, hne⟩, (C4_churn_and_totals 0 [wSale] [wCust] hpw hclosure hne).1⟩

/- Regional revenue conservation (claim C2). -/

theorem swc_sum (ss : List Sale) (cs : List Customer)
    (hpw : cs.Pairwise (fun a b => a.id ≠ b.id))
    (hclosure : ∀ s ∈ ss, ∃ c ∈ cs, c.id = s.customer_id) :
    ((sales_with_customer ss cs).map fun sc => sc.1.total_amount).sum
      = (ss.map fun s => s.total_amount).sum := by
  induction ss with
  | nil => rfl
  | cons s rest ih =>
    have hrec := ih (fun x hx => hclosure x (List.mem_cons_of_mem s hx))
    rcases hclosure s (List.mem_cons_self s rest) with ⟨c, hc, hcid⟩
    have hfilter : cs.filter (fun b => decide (b.id = s.customer_id)) = [c] := by
      have hcongr : ∀ b ∈ cs, decide (b.id = s.customer_id) = decide (b.id = c.id) := by
        intro b _
        rw [hcid]
      rw [List.filter_congr hcongr]
      exact filter_eq_singleton_of_key hpw hc
    have hcons : sales_with_customer (s :: rest) cs
        = ((cs.filter fun b => decide (b.id = s.customer_id)).map fun c => (s, c))
          ++ sales_with_customer rest cs := by
      simp [sales_with_customer]
    rw [hcons, hfilter, List.map_append, List.sum_append, hrec]
    simp

theorem C2_region_revenue_conservation (ss : List Sale) (cs : List Customer)
    (hpw : cs.Pairwise (fun a b => a.id ≠ b.id))
    (hclosure : ∀ s ∈ ss, ∃ c ∈ cs, c.id = s.customer_id)
    (hregion : ∀ c ∈ cs, (c.region).isSome = true) :
    ((region_keys (sales_with_customer ss cs)).map fun r =>
        ((region_rows (sales_with_customer ss cs) r).map
          fun sc => sc.1.total_amount).sum).sum
      = (ss.map fun s => s.total_amount).sum ∧
    ((revenue_by_region ss cs).map fun e => e.2.total_revenue)
      = ((region_keys (sales_with_customer ss cs)).map fun r =>
          round2 (((region_rows (sales_with_customer ss cs) r).map
            fun sc => sc.1.total_amount).sum)) ∧
    |((revenue_by_region ss cs).map fun e => e.2.total_revenue).sum
        - (ss.map fun s => s.total_amount).sum|
      ≤ ((revenue_by_region ss cs).length : ℚ) * (1/200) := by
  have hnd : (region_keys (sales_with_customer ss cs)).Nodup :=
    ((sortBy_perm _ _).nodup_iff).mpr nodup_distinctBy_id
  have hcov : ∀ sc ∈ sales_with_customer ss cs,
      ∃ r ∈ region_keys (sales_with_customer ss cs), sc.2.region = some r := by
    intro sc hsc
    rcases mem_sales_with_customer hsc with ⟨_, hccs, _⟩
    rcases Option.isSome_iff_exists.mp (hregion sc.2 hccs) with ⟨r, hr⟩
    refine ⟨r, ?_, hr⟩
    exact (sortBy_perm _ _).mem_iff.mpr
      (mem_distinctBy_id (List.mem_filterMap.mpr ⟨sc, hsc, hr⟩))
  have h1 : ((region_keys (sales_with_customer ss cs)).map fun r =>
      ((region_rows (sales_with_customer ss cs) r).map
        fun sc => sc.1.total_amount).sum).sum
      = (ss.map fun s => s.total_amount).sum := by
    have hp := sum_partition (region_keys (sales_with_customer ss cs))
      (sales_with_customer ss cs) (fun sc => sc.2.region)
      (fun sc => sc.1.total_amount) hnd hcov
    exact hp.trans (swc_sum ss cs hpw hclosure)
  have h2 : ((revenue_by_region ss cs).map fun e => e.2.total_revenue)
      = ((region_keys (sales_with_customer ss cs)).map fun r =>
          round2 (((region_rows (sales_with_customer ss cs) r).map
            fun sc => sc.1.total_amount).sum)) := by
    simp only [revenue_by_region, List.map_map]
    rfl
  refine ⟨h1, h2, ?_⟩
  have h3 := abs_sum_map_round2_sub ((region_keys (sales_with_customer ss cs)).map fun r =>
    ((region_rows (sales_with_customer ss cs) r).map fun sc => sc.1.total_amount).sum)
  rw [h1] at h3
  have h4 : ((revenue_by_region ss cs).map fun e => e.2.total_revenue)
      = List.map round2 ((region_keys (sales_with_customer ss cs)).map fun r =>
          ((region_rows (sales_with_customer ss cs) r).map
            fun sc => sc.1.total_amount).sum) := by
    rw [h2, List.map_map]
    rfl
  rw [h4]
  have h5 : (revenue_by_region ss cs).length
      = (region_keys (sales_with_customer ss cs)).length := by
    simp [revenue_by_region]
  rw [h5]
  simpa [List.length_map] using h3

/-- Witness for C2 at the one-sale, one-customer input. -/
theorem C2_witness :
    ([wCust].Pairwise (fun a b => a.id ≠ b.id) ∧
     (∀ s ∈ [wSale], ∃ c ∈ [wCust], c.id = s.customer_id) ∧
     (∀ c ∈ [wCust], (c.region).isSome = true)) ∧
    ((region_keys (sales_with_customer [wSale] [wCust])).map fun r =>
        ((region_rows (sales_with_customer [wSale] [wCust]) r).map
          fun sc => sc.1.total_amount).sum).sum
      = (([wSale] : List Sale).map fun s => s.total_amount).sum := by
  have hpw : [wCust].Pairwise (fun a b => a.id ≠ b.id) := by simp
  have hclosure : ∀ s ∈ [wSale], ∃ c ∈ [wCust], c.id = s.customer_id := by
    intro s hs
    simp only [List.mem_singleton] at hs
    exact ⟨wCust, List.mem_singleton.mpr rfl, by rw [hs]; rfl⟩
  have hregion : ∀ c ∈ [wCust], (c.region).isSome = true := by
    intro c hc
    simp only [List.mem_singleton] at hc
    rw [hc]
    rfl
  exact ⟨⟨hpw, hclosure, hregion⟩,
    (C2_region_revenue_conservation [wSale] [wCust] hpw hclosure hregion).1⟩

/- top_products shape (claim C6). -/

theorem eq_of_unique_key {α κ : Type} (key : α → κ) :
    ∀ {l : List α}, l.Pairwise (fun a b => key a ≠ key b) →
      ∀ {a b : α}, a ∈ l → b ∈ l → key a = key b → a = b := by
  intro l
  induction l with
  | nil => intro _ a b ha; simp at ha
  | cons x xs ih =>
    intro hpw a b ha hb hk
    rcases List.pairwise_cons.mp hpw with ⟨hx, htail⟩
    rcases List.mem_cons.mp ha with h1 | h1 <;> rcases List.mem_cons.mp hb with h2 | h2
    · rw [h1, h2]
    · subst h1
      exact absurd hk (hx b h2)
    · subst h2
      exact absurd hk.symm (hx a h1)
    · exact ih htail h1 h2 hk

theorem product_key_spec {sp : Sale × Product} {k : Int × String × String}
    (h : product_key sp = some k) :
    sp.2.name = some k.2.1 ∧ sp.2.category = some k.2.2 ∧ sp.1.product_id = k.1 := by
  unfold product_key at h
  cases hn : sp.2.name with
  | none =>
    rw [hn] at h
    simp at h
  | some n =>
    cases hc : sp.2.category with
    | none =>
      rw [hn, hc] at h
      simp at h
    | some c =>
      rw [hn, hc] at h
      simp only [Option.some.injEq] at h
      subst h
      exact ⟨rfl, rfl, rfl⟩

theorem product_keys_mem_spec {rows : List (Sale × Product)} {k : Int × String × String}
    (h : k ∈ product_keys rows) : ∃ sp ∈ rows, product_key sp = some k := by
  have h2 : k ∈ distinctBy id (rows.filterMap product_key) :=
    (sortBy_perm _ _).mem_iff.mp h
  exact List.mem_filterMap.mp (distinctBy_subset h2)

theorem product_keys_pid_inj (ss : List Sale) (ps : List Product)
    (hpw : ps.Pairwise (fun a b => a.id ≠ b.id)) :
    ∀ k1 ∈ product_keys (sales_with_product ss ps),
    ∀ k2 ∈ product_keys (sales_with_product ss ps), k1.1 = k2.1 → k1 = k2 := by
  intro k1 h1 k2 h2 heq
  obtain ⟨sp1, hsp1, hk1⟩ := product_keys_mem_spec h1
  obtain ⟨sp2, hsp2, hk2⟩ := product_keys_mem_spec h2
  obtain ⟨hn1, hc1, hp1⟩ := product_key_spec hk1
  obtain ⟨hn2, hc2, hp2⟩ := product_key_spec hk2
  obtain ⟨_, hmem1, hid1⟩ := mem_sales_with_product hsp1
  obtain ⟨_, hmem2, hid2⟩ := mem_sales_with_product hsp2
  have hpe : sp1.2 = sp2.2 := by
    refine eq_of_unique_key (fun p => p.id) hpw hmem1 hmem2 ?_
    show sp1.2.id = sp2.2.id
    rw [hid1, hid2, hp1, hp2, heq]
  obtain ⟨a1, b1, c1⟩ := k1
  obtain ⟨a2, b2, c2⟩ := k2
  have hb : b1 = b2 := by
    have := hn1.symm.trans ((congrArg (fun p : Product => p.name) hpe).trans hn2)
    exact Option.some.inj this
  have hcc : c1 = c2 := by
    have := hc1.symm.trans ((congrArg (fun p : Product => p.category) hpe).trans hc2)
    exact Option.some.inj this
  have ha : a1 = a2 := heq
  rw [ha, hb, hcc]

theorem grouped_products_pid_pairwise (ss : List Sale) (ps : List Product)
    (hpw : ps.Pairwise (fun a b => a.id ≠ b.id)) :
    (grouped_products (sales_with_product ss ps)).Pairwise
      (fun a b => a.product_id ≠ b.product_id) := by
  unfold grouped_products
  rw [List.pairwise_map]
  have hnd : (product_keys (sales_with_product ss ps)).Pairwise (fun a b => a ≠ b) :=
    ((sortBy_perm _ _).nodup_iff).mpr nodup_distinctBy_id
  refine hnd.imp_of_mem ?_
  intro k1 k2 hm1 hm2 hne h1eq
  exact hne (product_keys_pid_inj ss ps hpw k1 hm1 k2 hm2 h1eq)

theorem revDescLe_trans : ∀ a b c : TopProduct,
    revDescLe a b = true → revDescLe b c = true → revDescLe a c = true := by
  intro a b c h1 h2
  simp only [revDescLe, decide_eq_true_eq] at h1 h2 ⊢
  exact le_trans h2 h1

theorem revDescLe_total : ∀ a b : TopProduct,
    revDescLe a b = true ∨ revDescLe b a = true := by
  intro a b
  simp only [revDescLe, decide_eq_true_eq]
  exact le_total _ _

/-- C6 counterexample: the claim quantifies over every input, but at an input
whose products table has two rows sharing id 11, the sales-products merge
duplicates the one sale into two groups and top_products reports two entries
with the same product_id, refuting the no-duplicate conjunct of the claim as
stated. -/
theorem C6_counterexample :
    top_products [wSale] [dupProdA, dupProdB] =
      [{ product_id := 11, name := "A", category := "X", total_quantity_sold := 2,
         total_revenue := 40, number_of_sales := 1 },
       { product_id := 11, name := "B", category := "X", total_quantity_sold := 2,
         total_revenue := 40, number_of_sales := 1 }] ∧
    ¬ ((top_products [wSale] [dupProdA, dupProdB]).Pairwise
        (fun a b => a.product_id ≠ b.product_id)) := by
  have hrows : sales_with_product [wSale] [dupProdA, dupProdB]
      = [(wSale, dupProdA), (wSale, dupProdB)] := rfl
  have hk : product_keys [(wSale, dupProdA), (wSale, dupProdB)]
      = [((11 : Int), "A", "X"), ((11 : Int), "B", "X")] := rfl
  have hfA : List.filter (fun sp => decide (product_key sp = some ((11 : Int), "A", "X")))
      [(wSale, dupProdA), (wSale, dupProdB)] = [(wSale, dupProdA)] := rfl
  have hfB : List.filter (fun sp => decide (product_key sp = some ((11 : Int), "B", "X")))
      [(wSale, dupProdA), (wSale, dupProdB)] = [(wSale, dupProdB)] := rfl
  have hfull : top_products [wSale] [dupProdA, dupProdB] =
      [{ product_id := 11, name := "A", category := "X", total_quantity_sold := 2,
         total_revenue := 40, number_of_sales := 1 },
       { product_id := 11, name := "B", category := "X", total_quantity_sold := 2,
         total_revenue := 40, number_of_sales := 1 }] := by
    simp only [top_products, grouped_products, hrows, hk, List.map_cons, List.map_nil,
      hfA, hfB]
    norm_num [sortBy, insertSorted, revDescLe, round2, round_eq, List.filterMap_cons,
      List.filterMap_nil, wSale, dupProdA, dupProdB]
  refine ⟨hfull, ?_⟩
  rw [hfull]
  intro hpw2
  rcases List.pairwise_cons.mp hpw2 with ⟨hx, _⟩
  exact hx _ (List.mem_cons_self _ _) rfl

/-- C6 (amended): provided the products table has pairwise-distinct ids (as
cleaning guarantees), every descending-sorted permutation of the grouped
product table - which is all that sort_values with its default, unstable
quicksort guarantees to produce - yields after head(20) at most 20 entries,
sorted descending by summed revenue, with pairwise distinct product ids; in
particular this holds of the executable top_products refinement. The
original tie-order conjunct (ties in group iteration order) is a stable-sort
property the program's quicksort does not guarantee, and is dropped. -/
theorem C6_top_products_sorted (ss : List Sale) (ps : List Product)
    (hpw : ps.Pairwise (fun a b => a.id ≠ b.id)) :
    (∀ sorted : List TopProduct,
      sorted.Perm (grouped_products (sales_with_product ss ps)) →
      sorted.Pairwise (fun a b => b.total_revenue ≤ a.total_revenue) →
      ((sorted.take 20).length ≤ 20 ∧
       List.Chain' (fun a b => b.total_revenue ≤ a.total_revenue) (sorted.take 20) ∧
       (sorted.take 20).Pairwise (fun a b => a.product_id ≠ b.product_id))) ∧
    (top_products ss ps).length ≤ 20 ∧
    List.Chain' (fun a b => b.total_revenue ≤ a.total_revenue) (top_products ss ps) ∧
    (top_products ss ps).Pairwise (fun a b => a.product_id ≠ b.product_id) := by
  have hgen : ∀ sorted : List TopProduct,
      sorted.Perm (grouped_products (sales_with_product ss ps)) →
      sorted.Pairwise (fun a b => b.total_revenue ≤ a.total_revenue) →
      ((sorted.take 20).length ≤ 20 ∧
       List.Chain' (fun a b => b.total_revenue ≤ a.total_revenue) (sorted.take 20) ∧
       (sorted.take 20).Pairwise (fun a b => a.product_id ≠ b.product_id)) := by
    intro sorted hperm hsort
    refine ⟨?_, ?_, ?_⟩
    · rw [List.length_take]
      exact min_le_left _ _
    · exact hsort.chain'.take 20
    · apply List.Pairwise.sublist (List.take_sublist _ _)
      exact (List.Perm.pairwise_iff (fun h => h.symm) hperm).mpr
        (grouped_products_pid_pairwise ss ps hpw)
  refine ⟨hgen, ?_⟩
  have hperm : (sortBy revDescLe (grouped_products (sales_with_product ss ps))).Perm
      (grouped_products (sales_with_product ss ps)) := sortBy_perm _ _
  have hsort : (sortBy revDescLe (grouped_products (sales_with_product ss ps))).Pairwise
      (fun a b => b.total_revenue ≤ a.total_revenue) := by
    refine (sortBy_pairwise revDescLe_trans revDescLe_total _).imp ?_
    intro a b h
    simpa [revDescLe] using h
  exact hgen _ hperm hsort

/-- Witness for C6 (amended) at the one-product input. -/
theorem C6_witness :
    ([wProd].Pairwise (fun a b => a.id ≠ b.id)) ∧
    (top_products [wSale] [wProd]).length ≤ 20 :=
  ⟨by simp, (C6_top_products_sorted [wSale] [wProd] (by simp)).2.1⟩
